import Mathlib

/-!
Verification development for the transaction normalization, rule-application
and flag-reconciliation engine of the `boookkeeping-demo` repository
(`python-backend/transactions/utils.py` and
`python-backend/transactions/models.py`).

The Python source is shallowly embedded: Django ORM state is an explicit
`DB` value, save-signals are explicit functions threaded through every
save, and the fallible operations return `Except`.  Python `Decimal`
values are modelled as rationals, Python `datetime` values as a record of
calendar fields.  Calls into the Python standard library (`Decimal(str)`,
`datetime.strptime`) are modelled by concrete Lean functions covering the
numeric strings and the format directives the source actually uses; the
third-party best-effort `dateutil` parser is a parameter of the
environment, since only its success or failure is ever observed.
-/

namespace Bookkeeping

/-- Model of Python `datetime`: calendar fields plus an optional UTC offset
in minutes (`none` = naive datetime, `some o` = aware). -/
structure PDateTime where
  year : Nat
  month : Nat
  day : Nat
  hour : Nat := 0
  minute : Nat := 0
  second : Nat := 0
  microsecond : Nat := 0
  tzOffsetMinutes : Option Int := none
deriving Repr, DecidableEq

/-- `django.utils.timezone.make_aware` applied when `timezone.is_naive`:
attaches the current timezone (modelled as UTC) to a naive datetime. -/
def makeAwareIfNaive (d : PDateTime) : PDateTime :=
  match d.tzOffsetMinutes with
  | some _ => d
  | none => { d with tzOffsetMinutes := some 0 }

/-- The whitespace characters stripped by Python `str.strip()` (ASCII part). -/
def isPySpace (c : Char) : Bool :=
  c = ' ' || c = '\t' || c = '\n' || c = '\x0d' || c = '\x0b' || c = '\x0c'

/-- Python `str.strip()` on a list of characters. -/
def pyStripList (l : List Char) : List Char :=
  ((l.dropWhile isPySpace).reverse.dropWhile isPySpace).reverse

/-- Python `str.strip()`. -/
def pyStrip (s : String) : String :=
  String.mk (pyStripList s.toList)

/-- Replace every occurrence of a character by a string
(`str.replace` for a one-character needle). -/
def pyReplaceChar (c : Char) (new : List Char) : List Char → List Char
  | [] => []
  | x :: xs => if x = c then new ++ pyReplaceChar c new xs else x :: pyReplaceChar c new xs

/-- `date_str.replace('Z', '+00:00')`. -/
def replaceZ (s : String) : String :=
  String.mk (pyReplaceChar 'Z' "+00:00".toList s.toList)

instance {ε α : Type} [DecidableEq ε] [DecidableEq α] : DecidableEq (Except ε α)
  | .ok a, .ok b =>
    if h : a = b then isTrue (by rw [h]) else isFalse (fun he => by cases he; exact h rfl)
  | .ok _, .error _ => isFalse (fun he => by cases he)
  | .error _, .ok _ => isFalse (fun he => by cases he)
  | .error e, .error f =>
    if h : e = f then isTrue (by rw [h]) else isFalse (fun he => by cases he; exact h rfl)

/-- Digit character as a value. -/
def digitVal (c : Char) : Nat := c.toNat - '0'.toNat

/-- Numeric value of a digit list (most significant first). -/
def digitsToNat (l : List Char) : Nat :=
  l.foldl (fun acc c => acc * 10 + digitVal c) 0

/-- Model of constructing a Python `Decimal` from the digits of a numeric
string: `sign * mantissa * 10 ^ scale` as a rational. -/
def decValue (sign : Int) (mantissa : Nat) (scale : Int) : Rat :=
  if 0 ≤ scale then Rat.divInt (sign * mantissa * (10 : Int) ^ scale.toNat) 1
  else Rat.divInt (sign * mantissa) ((10 : Int) ^ (-scale).toNat)

/-- Split a character list at the first occurrence of a separator satisfying
`p`, returning the parts before and after it (the separator dropped). -/
def splitAtFirst (p : Char → Bool) : List Char → Option (List Char × List Char)
  | [] => none
  | c :: cs =>
    if p c then some ([], cs)
    else match splitAtFirst p cs with
      | some (a, b) => some (c :: a, b)
      | none => none

/-- Parse the mantissa part of a decimal numeric string: digits with at most
one decimal point and at least one digit overall.  Returns the mantissa as
an integer together with the number of fractional digits. -/
def parseMantissa (l : List Char) : Option (Nat × Nat) :=
  match splitAtFirst (· = '.') l with
  | none =>
    if l ≠ [] ∧ l.all Char.isDigit then some (digitsToNat l, 0) else none
  | some (intPart, fracPart) =>
    if (intPart ++ fracPart) ≠ [] ∧ intPart.all Char.isDigit ∧ fracPart.all Char.isDigit then
      some (digitsToNat (intPart ++ fracPart), fracPart.length)
    else none

/-- Parse an optional exponent suffix (`e`/`E`, optional sign, digits). -/
def parseExponent (l : List Char) : Option Int :=
  match l with
  | [] => none
  | '+' :: ds => if ds ≠ [] ∧ ds.all Char.isDigit then some (digitsToNat ds) else none
  | '-' :: ds => if ds ≠ [] ∧ ds.all Char.isDigit then some (-(digitsToNat ds : Int)) else none
  | ds => if ds.all Char.isDigit then some (digitsToNat ds) else none

/-- Model of Python `decimal.Decimal(str)` on finite numeric strings:
optional surrounding whitespace, optional sign, digits with at most one
decimal point, optional `e`/`E` exponent.  Returns `none` when the Python
constructor would raise `InvalidOperation` (the special values `NaN` and
`Infinity`, which the repository never feeds it, are not modelled). -/
def parseDecimal (s : String) : Option Rat :=
  let l := pyStripList s.toList
  let (sign, rest) : Int × List Char :=
    match l with
    | '+' :: cs => (1, cs)
    | '-' :: cs => (-1, cs)
    | cs => (1, cs)
  match splitAtFirst (fun c => c = 'e' || c = 'E') rest with
  | none =>
    match parseMantissa rest with
    | some (m, frac) => some (decValue sign m (-(frac : Int)))
    | none => none
  | some (mantPart, expPart) =>
    match parseMantissa mantPart, parseExponent expPart with
    | some (m, frac), some e => some (decValue sign m (e - frac))
    | _, _ => none

/-- A flag dictionary as produced by the parsers and validators
(`{'flag_type': ..., 'message': ...}`). -/
structure FlagSpec where
  flag_type : String
  message : String
deriving Repr, DecidableEq

/-- `parse_amount` (utils.py): parse an amount string into a Decimal,
returning `None` plus a `PARSE_ERROR` flag dict for missing/blank or
unparseable input.  The argument is `none` for Python `None`. -/
def parse_amount (amount_str : Option String) : Option Rat × Option FlagSpec :=
  match amount_str with
  | none => (none, some ⟨"PARSE_ERROR", "Missing or invalid amount value"⟩)
  | some s =>
    if pyStrip s = "" then
      (none, some ⟨"PARSE_ERROR", "Missing or invalid amount value"⟩)
    else match parseDecimal s with
      | some v => (some v, none)
      | none => (none, some ⟨"PARSE_ERROR", "Could not parse amount: '" ++ s ++ "'"⟩)

/-! ## Model of `datetime.strptime` for the format directives used in
`parse_datetime` (utils.py): `%Y %m %d %H %M %S %f %z %b` and literal
characters.  Numeric fields follow CPython's `_strptime` regexes (one or
two digits within the value range, `%Y` exactly four digits, `%f` one to
six digits); the resulting field values are then validated the way the
`datetime` constructor validates them (day against month length). -/

/-- A single component of a `strptime` format string. -/
inductive FmtItem where
  | lit (c : Char)
  | yr      -- %Y: exactly four digits
  | mon     -- %m: month 1..12, one or two digits
  | dayD    -- %d: day 1..31, one or two digits
  | hr      -- %H: hour 0..23, one or two digits
  | minu    -- %M: minute 0..59, one or two digits
  | sec     -- %S: second 0..61, one or two digits
  | frac    -- %f: one to six digits of fractional seconds
  | tzoff   -- %z: UTC offset (sign, hours, optional colon, minutes)
  | monAbbr -- %b: abbreviated month name, case-insensitive
deriving Repr, DecidableEq

/-- Fields accumulated while matching a format (CPython defaults: year 1900,
month and day 1, time fields 0, no timezone). -/
structure StrpFields where
  year : Nat := 1900
  month : Nat := 1
  day : Nat := 1
  hour : Nat := 0
  minute : Nat := 0
  second : Nat := 0
  microsecond : Nat := 0
  tz : Option Int := none
deriving Repr, DecidableEq

/-- Match a one-or-two digit number in the range `[lo, hi]`, preferring two
digits (as the CPython regexes do). -/
def parseNum2 (lo hi : Nat) : List Char → Option (Nat × List Char)
  | c1 :: c2 :: rest =>
    if c1.isDigit ∧ c2.isDigit ∧ lo ≤ 10 * digitVal c1 + digitVal c2 ∧
        10 * digitVal c1 + digitVal c2 ≤ hi then
      some (10 * digitVal c1 + digitVal c2, rest)
    else if c1.isDigit ∧ lo ≤ digitVal c1 ∧ digitVal c1 ≤ hi then
      some (digitVal c1, c2 :: rest)
    else none
  | [c1] =>
    if c1.isDigit ∧ lo ≤ digitVal c1 ∧ digitVal c1 ≤ hi then some (digitVal c1, []) else none
  | [] => none

/-- Match exactly four digits (`%Y`). -/
def parseYear4 : List Char → Option (Nat × List Char)
  | c1 :: c2 :: c3 :: c4 :: rest =>
    if c1.isDigit ∧ c2.isDigit ∧ c3.isDigit ∧ c4.isDigit then
      some (digitsToNat [c1, c2, c3, c4], rest)
    else none
  | _ => none

/-- Match one to six digits of fractional seconds (`%f`), scaled to
microseconds as CPython does. -/
def parseFrac (l : List Char) : Option (Nat × List Char) :=
  let ds := (l.take 6).takeWhile Char.isDigit
  if ds = [] then none
  else some (digitsToNat ds * 10 ^ (6 - ds.length), l.drop ds.length)

/-- Match a `%z` UTC offset of the shape `±HH:MM` or `±HHMM` (the only
shapes the source can feed it, having rewritten a trailing `Z` to
`+00:00`). -/
def parseTzOffset (l : List Char) : Option (Int × List Char) :=
  let signed : Option (Int × List Char) :=
    match l with
    | '+' :: rest => some (1, rest)
    | '-' :: rest => some (-1, rest)
    | _ => none
  match signed with
  | none => none
  | some (sign, rest) =>
    match rest with
    | h1 :: h2 :: ':' :: m1 :: m2 :: rest' =>
      if h1.isDigit ∧ h2.isDigit ∧ m1.isDigit ∧ m2.isDigit then
        some (sign * (digitsToNat [h1, h2] * 60 + digitsToNat [m1, m2]), rest')
      else none
    | h1 :: h2 :: m1 :: m2 :: rest' =>
      if h1.isDigit ∧ h2.isDigit ∧ m1.isDigit ∧ m2.isDigit then
        some (sign * (digitsToNat [h1, h2] * 60 + digitsToNat [m1, m2]), rest')
      else none
    | _ => none

/-- The abbreviated month names matched by `%b`, lower-cased. -/
def monthAbbrevs : List (List Char) :=
  ["jan".toList, "feb".toList, "mar".toList, "apr".toList, "may".toList, "jun".toList,
   "jul".toList, "aug".toList, "sep".toList, "oct".toList, "nov".toList, "dec".toList]

/-- Match a `%b` month abbreviation (case-insensitive). -/
def parseMonthAbbr (l : List Char) : Option (Nat × List Char) :=
  let pfx := (l.take 3).map Char.toLower
  match monthAbbrevs.findIdx? (· == pfx) with
  | some i => if l.length ≥ 3 then some (i + 1, l.drop 3) else none
  | none => none

/-- Run a format item list against the input, accumulating fields.  The
whole input must be consumed. -/
def runFmt : List FmtItem → List Char → StrpFields → Option StrpFields
  | [], [], acc => some acc
  | [], _ :: _, _ => none
  | .lit c :: fmt, l, acc =>
    match l with
    | c' :: rest => if c' = c then runFmt fmt rest acc else none
    | [] => none
  | .yr :: fmt, l, acc =>
    match parseYear4 l with
    | some (v, rest) => runFmt fmt rest { acc with year := v }
    | none => none
  | .mon :: fmt, l, acc =>
    match parseNum2 1 12 l with
    | some (v, rest) => runFmt fmt rest { acc with month := v }
    | none => none
  | .dayD :: fmt, l, acc =>
    match parseNum2 1 31 l with
    | some (v, rest) => runFmt fmt rest { acc with day := v }
    | none => none
  | .hr :: fmt, l, acc =>
    match parseNum2 0 23 l with
    | some (v, rest) => runFmt fmt rest { acc with hour := v }
    | none => none
  | .minu :: fmt, l, acc =>
    match parseNum2 0 59 l with
    | some (v, rest) => runFmt fmt rest { acc with minute := v }
    | none => none
  | .sec :: fmt, l, acc =>
    match parseNum2 0 61 l with
    | some (v, rest) => runFmt fmt rest { acc with second := v }
    | none => none
  | .frac :: fmt, l, acc =>
    match parseFrac l with
    | some (v, rest) => runFmt fmt rest { acc with microsecond := v }
    | none => none
  | .tzoff :: fmt, l, acc =>
    match parseTzOffset l with
    | some (v, rest) => runFmt fmt rest { acc with tz := some v }
    | none => none
  | .monAbbr :: fmt, l, acc =>
    match parseMonthAbbr l with
    | some (v, rest) => runFmt fmt rest { acc with month := v }
    | none => none

/-- Whether a year is a Gregorian leap year. -/
def isLeapYear (y : Nat) : Bool :=
  (y % 4 = 0 ∧ y % 100 ≠ 0) ∨ y % 400 = 0

/-- Days in a month (`datetime` constructor validation). -/
def daysInMonth (y m : Nat) : Nat :=
  if m = 2 then (if isLeapYear y then 29 else 28)
  else if m ∈ [4, 6, 9, 11] then 30
  else 31

/-- Model of `datetime.strptime(s, fmt)`: match the format, then build the
datetime, failing when the `datetime` constructor would raise (day out of
range for the month). -/
def pyStrptime (fmt : List FmtItem) (s : String) : Option PDateTime :=
  match runFmt fmt s.toList {} with
  | none => none
  | some f =>
    if f.day ≤ daysInMonth f.year f.month then
      some ⟨f.year, f.month, f.day, f.hour, f.minute, f.second, f.microsecond, f.tz⟩
    else none

/-- `%Y-%m-%dT%H:%M:%S.%f%z` -/
def fmtIsoTMicroTz : List FmtItem :=
  [.yr, .lit '-', .mon, .lit '-', .dayD, .lit 'T', .hr, .lit ':', .minu, .lit ':', .sec,
   .lit '.', .frac, .tzoff]

/-- `%Y-%m-%dT%H:%M:%S%z` -/
def fmtIsoTTz : List FmtItem :=
  [.yr, .lit '-', .mon, .lit '-', .dayD, .lit 'T', .hr, .lit ':', .minu, .lit ':', .sec, .tzoff]

/-- `%Y-%m-%dT%H:%M:%S.%f` -/
def fmtIsoTMicro : List FmtItem :=
  [.yr, .lit '-', .mon, .lit '-', .dayD, .lit 'T', .hr, .lit ':', .minu, .lit ':', .sec,
   .lit '.', .frac]

/-- `%Y-%m-%dT%H:%M:%S` -/
def fmtIsoT : List FmtItem :=
  [.yr, .lit '-', .mon, .lit '-', .dayD, .lit 'T', .hr, .lit ':', .minu, .lit ':', .sec]

/-- The common (non-`T`) formats tried by `parse_datetime`, in source order:
`%Y-%m-%d %H:%M:%S.%f`, `%Y-%m-%d %H:%M:%S`, `%Y-%m-%d`, `%m/%d/%Y %H:%M:%S`,
`%m/%d/%Y`, `%d/%m/%Y`, `%b %d %Y`. -/
def commonFormats : List (List FmtItem) :=
  [[.yr, .lit '-', .mon, .lit '-', .dayD, .lit ' ', .hr, .lit ':', .minu, .lit ':', .sec,
    .lit '.', .frac],
   [.yr, .lit '-', .mon, .lit '-', .dayD, .lit ' ', .hr, .lit ':', .minu, .lit ':', .sec],
   [.yr, .lit '-', .mon, .lit '-', .dayD],
   [.mon, .lit '/', .dayD, .lit '/', .yr, .lit ' ', .hr, .lit ':', .minu, .lit ':', .sec],
   [.mon, .lit '/', .dayD, .lit '/', .yr],
   [.dayD, .lit '/', .mon, .lit '/', .yr],
   [.monAbbr, .lit ' ', .dayD, .lit ' ', .yr]]

/-- The evaluation environment: the current time (`django.utils.timezone.now()`)
and the third-party `dateutil.parser.parse` best-effort fallback, of which the
source observes only success (a datetime) or failure (`none`). -/
structure Env where
  now : PDateTime
  dateutilParse : String → Option PDateTime

/-- Try a list of formats in order, returning the first success. -/
def tryFormats (fmts : List (List FmtItem)) (s : String) : Option PDateTime :=
  match fmts with
  | [] => none
  | fmt :: rest =>
    match pyStrptime fmt s with
    | some dt => some dt
    | none => tryFormats rest s

/-- `parse_datetime` (utils.py): parse a datetime string, trying ISO
variants, a list of common formats, then the `dateutil` fallback.  Blank
input yields the current time with no error; total failure yields `none`
with a `PARSE_ERROR` flag quoting the raw input. -/
def parse_datetime (env : Env) (date_str : String) : Option PDateTime × Option FlagSpec :=
  if date_str = "" ∨ pyStrip date_str = "" then (some env.now, none)
  else
    -- Special handling for ISO format with a trailing Z (Zulu/UTC time)
    let zResult : Option PDateTime :=
      if date_str.toList.contains 'T' ∧ date_str.toList.getLast? = some 'Z' then
        let iso_date_str := replaceZ date_str
        if iso_date_str.toList.contains '.' then pyStrptime fmtIsoTMicroTz iso_date_str
        else pyStrptime fmtIsoTTz iso_date_str
      else none
    match zResult with
    | some dt => (some dt, none)
    | none =>
      -- Other ISO formats with a T separator (parsed naive, then made aware)
      let tResult : Option PDateTime :=
        if date_str.toList.contains 'T' then tryFormats [fmtIsoTMicro, fmtIsoT] date_str
        else none
      match tResult with
      | some dt => (some (makeAwareIfNaive dt), none)
      | none =>
        match tryFormats commonFormats date_str with
        | some dt => (some (makeAwareIfNaive dt), none)
        | none =>
          -- Last resort: the dateutil best-effort parser
          match env.dateutilParse date_str with
          | some dt => (some (makeAwareIfNaive dt), none)
          | none =>
            (none, some ⟨"PARSE_ERROR", "Could not parse date: '" ++ date_str ++ "'"⟩)

/-! ## Raw records and cleaning -/

/-- A raw `amount` value in an input mapping: a string, a number
(`int`/`float`/`Decimal`), or Python `None`. -/
inductive AmountVal where
  | str (s : String)
  | num (q : Rat)
  | null
deriving Repr, DecidableEq

/-- A raw `datetime` value in an input mapping: a string, an actual
`datetime` object, or Python `None`. -/
inductive DtVal where
  | str (s : String)
  | obj (d : PDateTime)
  | null
deriving Repr, DecidableEq

/-- A caller-supplied `custom_flag` payload (the mapping form; absent keys
are `none`). -/
structure CustomFlagPayload where
  flag_type : Option String := none
  message : Option String := none
  is_resolvable : Option Bool := none
deriving Repr, DecidableEq

/-- A raw input mapping for a transaction.  A field is `none` when the key
is absent from the dictionary.  (Description and category values, when
present, are strings — the source calls `.strip()` on them directly.) -/
structure RawRecord where
  description : Option String := none
  category : Option String := none
  amount : Option AmountVal := none
  datetime : Option DtVal := none
  custom_flag : Option CustomFlagPayload := none
deriving Repr, DecidableEq

/-- The cleaned, canonical data produced by `clean_transaction_data`. -/
structure CleanedData where
  description : String
  category : String
  amount : Option Rat
  datetime : Option PDateTime
deriving Repr, DecidableEq

/-- The amount component of `clean_transaction_data` / flag re-derivation:
`data.get('amount', '')`, numbers stringified (`str(number)` re-parses to
the same value), then `parse_amount`. -/
def parseAmountField (v : Option AmountVal) : Option Rat × Option FlagSpec :=
  match v with
  | some (.num q) => (some q, none)
  | some (.str s) => parse_amount (some s)
  | some .null => parse_amount none
  | none => parse_amount (some "")

/-- The datetime-flag component of validation: `original_data.get('datetime', '')`,
skipped for actual `datetime` objects, `None` stringified via the
`str(date_str) if date_str else ''` guard. -/
def parseDatetimeFieldFlag (env : Env) (v : Option DtVal) : Option FlagSpec :=
  match v with
  | some (.obj _) => none
  | some (.str s) => (parse_datetime env s).2
  | some .null => (parse_datetime env "").2
  | none => (parse_datetime env "").2

/-- `clean_transaction_data` (utils.py): trim description and category,
parse amount and datetime, swallowing parse flags. -/
def clean_transaction_data (env : Env) (data : RawRecord) : CleanedData :=
  let description := pyStrip (data.description.getD "")
  let category := pyStrip (data.category.getD "")
  let amount := (parseAmountField data.amount).1
  let datetime :=
    match data.datetime with
    | some (.obj d) => some (makeAwareIfNaive d)
    | some (.str s) => (parse_datetime env s).1
    | some .null => (parse_datetime env "").1
    | none => (parse_datetime env "").1
  ⟨description, category, amount, datetime⟩

/-! ## Data model (models.py) -/

/-- A persisted `Transaction` row. -/
structure Transaction where
  id : Nat
  description : String := ""
  category : String := ""
  amount : Option Rat := none
  datetime : Option PDateTime := none
deriving Repr, DecidableEq

/-- A persisted `TransactionFlag` row.  The store enforces uniqueness of
the natural key `(transaction, flag_type, message)`. -/
structure TransactionFlag where
  id : Nat
  transaction_id : Nat
  duplicates_transaction_id : Option Nat := none
  flag_type : String
  message : String
  is_resolvable : Bool := false
  is_resolved : Bool := false
deriving Repr, DecidableEq

/-- A JSON scalar in a rule's `filter_condition`. -/
inductive LookupVal where
  | str (s : String)
  | num (q : Rat)
deriving Repr, DecidableEq

/-- A persisted `TransactionRule` row. -/
structure TransactionRule where
  id : Nat
  filter_condition : List (String × LookupVal) := []
  category : Option String := none
  flag_message : Option String := none
deriving Repr, DecidableEq

/-- The datastore: transaction and flag tables plus the next primary keys.
Rules are passed separately to the operations that read them (standing in
for the rule cache / rule table, whose TTL mechanics are not modelled). -/
structure DB where
  transactions : List Transaction := []
  flags : List TransactionFlag := []
  nextTxnId : Nat := 1
  nextFlagId : Nat := 1
deriving Repr, DecidableEq

/-- Look a transaction up by primary key. -/
def txnById (db : DB) (tid : Nat) : Option Transaction :=
  db.transactions.find? (fun t => t.id == tid)

/-- Rows are consistent: primary keys are unique and below the id counter. -/
def DB.WF (db : DB) : Prop :=
  (db.transactions.map Transaction.id).Nodup ∧ ∀ t ∈ db.transactions, t.id < db.nextTxnId

instance (db : DB) : Decidable (DB.WF db) := by
  unfold DB.WF; infer_instance

/-! ## Validation flags (utils.py) -/

/-- `transaction_validation_flags` (utils.py): `MISSING_DATA` flags for
blank description/category, plus `PARSE_ERROR` flags re-derived from the
original data when provided (Python's `if original_data:` — an absent or
empty mapping skips the parse flags). -/
def transaction_validation_flags (env : Env) (transaction : Transaction)
    (original_data : Option RawRecord := none) : List FlagSpec :=
  let flags : List FlagSpec := []
  let flags := if transaction.description = "" then
      flags ++ [⟨"MISSING_DATA", "Missing or blank description"⟩] else flags
  let flags := if transaction.category = "" then
      flags ++ [⟨"MISSING_DATA", "Missing category"⟩] else flags
  match original_data with
  | none => flags
  | some od =>
    let flags := flags ++ (parseAmountField od.amount).2.toList
    flags ++ (parseDatetimeFieldFlag env od.datetime).toList

/-- `determine_flag_resolvability` (utils.py). -/
def determine_flag_resolvability (flag_data : FlagSpec) : Bool :=
  if flag_data.flag_type ∈ ["RULE_MATCH", "DUPLICATE", "CUSTOM"] then true
  else if flag_data.flag_type = "MISSING_DATA" then false
  else false

/-! ## Flag store primitives -/

/-- Whether a flag row matches the natural key `(transaction, flag_type, message)`. -/
def flagKeyMatch (tid : Nat) (ft msg : String) (f : TransactionFlag) : Bool :=
  f.transaction_id == tid && f.flag_type == ft && f.message == msg

/-- `TransactionFlag.objects.get_or_create(transaction=…, flag_type=…, message=…,
defaults=…)`: create the flag unless one with the same natural key exists.
Returns the updated store and whether a row was created. -/
def get_or_create_flag (db : DB) (tid : Nat) (ft msg : String)
    (is_resolvable : Bool) (is_resolved : Bool := false) : DB × Bool :=
  match db.flags.find? (flagKeyMatch tid ft msg) with
  | some _ => (db, false)
  | none =>
    ({ db with
        flags := db.flags ++ [⟨db.nextFlagId, tid, none, ft, msg, is_resolvable, is_resolved⟩],
        nextFlagId := db.nextFlagId + 1 }, true)

/-- One row of `bulk_create(..., ignore_conflicts=True)`: insert unless the
natural key is already present. -/
def bulk_insert_flag_ignore_conflict (db : DB) (tid : Nat) (dupId : Option Nat)
    (ft msg : String) (is_resolvable is_resolved : Bool) : DB :=
  if db.flags.any (flagKeyMatch tid ft msg) then db
  else { db with
      flags := db.flags ++ [⟨db.nextFlagId, tid, dupId, ft, msg, is_resolvable, is_resolved⟩],
      nextFlagId := db.nextFlagId + 1 }

/-- `create_transaction_flags` (utils.py): `get_or_create` each flag dict
for the transaction (resolvability derived from the type), returning the
dicts that were actually created.  (The callers under verification always
pass freshly built dicts, so the `'created'` marker skip never fires and is
not modelled.)  `createFlagStep` is the loop body. -/
def createFlagStep (tid : Nat) (acc : DB × List FlagSpec) (fd : FlagSpec) :
    DB × List FlagSpec :=
  let r := get_or_create_flag acc.1 tid fd.flag_type fd.message
    (determine_flag_resolvability fd) false
  (r.1, if r.2 then acc.2 ++ [fd] else acc.2)

def create_transaction_flags (db : DB) (tid : Nat) (flags : List FlagSpec) :
    DB × List FlagSpec :=
  flags.foldl (createFlagStep tid) (db, [])

/-- `clear_transaction_flags_bulk` (utils.py): delete the given flag types
for the given transactions, optionally only the unresolved ones. -/
def clear_transaction_flags_bulk (db : DB) (transactions : List Nat)
    (flag_types : List String := ["PARSE_ERROR", "MISSING_DATA", "RULE_MATCH"])
    (only_unresolved : Bool := true) : DB :=
  { db with flags := db.flags.filter (fun f =>
      !(transactions.contains f.transaction_id && flag_types.contains f.flag_type &&
        (!only_unresolved || !f.is_resolved))) }

/-- `process_custom_flag` (utils.py): upsert a caller-supplied flag
(defaults: type `CUSTOM`, resolvable) when it carries a message.  An
absent or empty payload (Python falsy) does nothing. -/
def process_custom_flag (db : DB) (custom_flag : Option CustomFlagPayload) (tid : Nat) : DB :=
  match custom_flag with
  | none => db
  | some cf =>
    if cf = {} then db
    else
      let flag_type := cf.flag_type.getD "CUSTOM"
      let message := cf.message.getD ""
      let is_resolvable := cf.is_resolvable.getD true
      if message ≠ "" then (get_or_create_flag db tid flag_type message is_resolvable false).1
      else db

/-! ## Save signals (models.py) -/

/-- The message of a generated duplicate flag. -/
def dupMessage (otherId : Nat) : String :=
  "Possible duplicate of transaction " ++ toString otherId

/-- `TransactionFlag.objects.update_or_create(transaction=…, flag_type='DUPLICATE',
defaults=…)` as used by the `create_duplicate_flag` receiver.  Django's
`get` raises `MultipleObjectsReturned` when several DUPLICATE flags exist
on the transaction; the model updates the first matching row instead,
which coincides with Django in the at-most-one-match case (the only one
the theorems below rely on).  `dupRewrite` is the per-row update applied
to the matched flag. -/
def dupRewrite (dupId : Nat) (msg : String) (isRes : Bool) (f0id : Nat)
    (f : TransactionFlag) : TransactionFlag :=
  if f.id == f0id then
    { f with duplicates_transaction_id := some dupId, message := msg,
             is_resolvable := true, is_resolved := isRes }
  else f

def update_or_create_duplicate_flag (db : DB) (tid : Nat) (dupId : Nat) (msg : String)
    (is_resolved : Bool) : DB :=
  match db.flags.find? (fun f => f.transaction_id == tid && f.flag_type == "DUPLICATE") with
  | some f0 =>
    { db with flags := db.flags.map (dupRewrite dupId msg is_resolved f0.id) }
  | none =>
    { db with
        flags := db.flags ++ [⟨db.nextFlagId, tid, some dupId, "DUPLICATE", msg, true, is_resolved⟩],
        nextFlagId := db.nextFlagId + 1 }

/-- `check_duplicates` pre_save receiver (models.py): before saving an
existing transaction, delete its unresolved DUPLICATE flags. -/
def pre_save_check_duplicates (db : DB) (tid : Nat) (isExisting : Bool) : DB :=
  if isExisting then
    { db with flags := db.flags.filter (fun f =>
        !(f.transaction_id == tid && f.flag_type == "DUPLICATE" && !f.is_resolved)) }
  else db

/-- The `is_resolved` carried over from an existing DUPLICATE flag on a
transaction, if any (`.first()` on an unordered queryset: first row). -/
def existingDupResolved (db : DB) (tid : Nat) : Bool :=
  match db.flags.find? (fun f => f.transaction_id == tid && f.flag_type == "DUPLICATE") with
  | some f => f.is_resolved
  | none => false

/-- `create_duplicate_flag` post_save receiver (models.py): after a save,
find all other transactions with the same description and amount (skipped
entirely when the amount is absent), upsert a DUPLICATE flag on the saved
instance pointing at the first of them, and on each of them pointing back
at the instance, preserving any existing resolution status.  On an update
that finds no duplicates, clear unresolved DUPLICATE flags of other
transactions that reference the instance. -/
def create_duplicate_flag (db : DB) (t : Transaction) (created : Bool) : DB :=
  if t.amount = none then db
  else
    match db.transactions.filter (fun u =>
        u.description == t.description && u.amount == t.amount && u.id != t.id) with
    | [] =>
      if !created then
        { db with flags := db.flags.filter (fun f =>
            !(f.duplicates_transaction_id == some t.id && f.flag_type == "DUPLICATE" &&
              !f.is_resolved)) }
      else db
    | first :: rest =>
      (first :: rest).foldl (fun db d =>
        update_or_create_duplicate_flag db d.id t.id (dupMessage t.id)
          (existingDupResolved db d.id))
        (update_or_create_duplicate_flag db t.id first.id (dupMessage first.id)
          (existingDupResolved db t.id))

/-- `Transaction.save()` on a fresh instance: pre_save and post_save
receivers fire around the insert.  Returns the new primary key. -/
def save_new_transaction (db : DB) (c : CleanedData) : DB × Nat :=
  (create_duplicate_flag
    { pre_save_check_duplicates db db.nextTxnId false with
      transactions := (pre_save_check_duplicates db db.nextTxnId false).transactions ++
        [⟨db.nextTxnId, c.description, c.category, c.amount, c.datetime⟩],
      nextTxnId := db.nextTxnId + 1 }
    ⟨db.nextTxnId, c.description, c.category, c.amount, c.datetime⟩ true, db.nextTxnId)

/-- `Transaction.save()` on an existing instance: pre_save receiver, row
update, post_save receiver with `created=False`. -/
def save_existing_transaction (db : DB) (t : Transaction) : DB :=
  create_duplicate_flag
    { pre_save_check_duplicates db t.id true with
      transactions := (pre_save_check_duplicates db t.id true).transactions.map
        (fun u => if u.id == t.id then t else u) }
    t false

/-! ## Rule engine (utils.py `apply_transaction_rule`)

`queryset.filter(**rule.filter_condition)` resolves each `field__operator`
key against the model when the filter is built; an unknown field or
unsupported lookup raises there, which the source converts into
`ValidationError("Invalid filter condition: …")`.  The embedded resolver
covers the fields and the operators the repository's rules use and
documents (`exact`, `icontains`, `contains`, `gt`, `lt`, `gte`, `lte` on
`description`, `category` and `amount`); keys outside that fragment
resolve to an error, exactly as an unknown field or lookup does. -/

/-- A filterable field of the embedded `Transaction` model. -/
inductive FieldRef where
  | description
  | category
  | amount
deriving Repr, DecidableEq

/-- A recognized lookup operator. -/
inductive LookupOp where
  | exact
  | icontains
  | contains
  | gt
  | lt
  | gte
  | lte
deriving Repr, DecidableEq

/-- A `filter_condition` key's resolved form: a text comparison or a
numeric comparison. -/
inductive ResolvedCond where
  | strCond (f : FieldRef) (op : LookupOp) (v : String)
  | amtCond (op : LookupOp) (v : Rat)
deriving Repr, DecidableEq

/-- Resolve a field name. -/
def fieldOfName : String → Except String FieldRef
  | "description" => .ok .description
  | "category" => .ok .category
  | "amount" => .ok .amount
  | f => .error ("Cannot resolve keyword '" ++ f ++ "' into field")

/-- Resolve a lookup name. -/
def opOfName (op : String) : Except String LookupOp :=
  match op with
  | "exact" => .ok .exact
  | "icontains" => .ok .icontains
  | "contains" => .ok .contains
  | "gt" => .ok .gt
  | "lt" => .ok .lt
  | "gte" => .ok .gte
  | "lte" => .ok .lte
  | _ => .error ("Unsupported lookup '" ++ op ++ "'")

/-- Split a key on the Django lookup separator `__` (Python
`key.split('__')`). -/
def splitOnDunder : List Char → List (List Char)
  | [] => [[]]
  | '_' :: '_' :: rest => [] :: splitOnDunder rest
  | c :: rest =>
    match splitOnDunder rest with
    | part :: parts => (c :: part) :: parts
    | [] => [[c]]

/-- Resolve one `field[__operator]` key and coerce its comparison value:
text fields take string values and substring/equality operators, the
amount field takes numeric values (a string value is coerced through the
decimal parser, failing like Django's field coercion does). -/
def resolveCondition (key : String) (v : LookupVal) : Except String ResolvedCond := do
  let (fname, opname) ←
    match (splitOnDunder key.toList).map String.mk with
    | [f] => .ok (f, "exact")
    | [f, op] => .ok (f, op)
    | _ => .error ("Unsupported lookup '" ++ key ++ "'")
  let field ← fieldOfName fname
  let op ← opOfName opname
  match field with
  | .amount =>
    match op with
    | .icontains | .contains => .error ("Unsupported lookup '" ++ opname ++ "' for DecimalField")
    | _ =>
      match v with
      | .num q => .ok (.amtCond op q)
      | .str s =>
        match parseDecimal s with
        | some q => .ok (.amtCond op q)
        | none => .error ("Could not coerce value for '" ++ key ++ "'")
  | _ =>
    match op with
    | .exact | .icontains | .contains =>
      match v with
      | .str s => .ok (.strCond field op s)
      | .num _ => .error ("Could not coerce value for '" ++ key ++ "'")
    | _ => .error ("Unsupported lookup '" ++ opname ++ "' for TextField")

/-- Whether `needle` is an initial segment of `hay`. -/
def leadsWith : List Char → List Char → Bool
  | [], _ => true
  | _ :: _, [] => false
  | n :: ns, h :: hs => n == h && leadsWith ns hs

/-- Whether `needle` occurs as a contiguous substring of `hay`. -/
def hasSubstring (hay needle : List Char) : Bool :=
  match hay with
  | [] => needle.isEmpty
  | _ :: hs => leadsWith needle hay || hasSubstring hs needle

/-- Case-insensitive form of a string. -/
def lowerChars (s : String) : List Char := s.toList.map Char.toLower

/-- Evaluate a resolved condition against a transaction row.  SQL
comparison semantics: every comparison against an absent (`NULL`) amount
is false. -/
def evalResolved (t : Transaction) : ResolvedCond → Bool
  | .strCond f op v =>
    let s := match f with
      | .description => t.description
      | .category => t.category
      | .amount => ""   -- unreachable: resolveCondition never builds this
    match op with
    | .exact => s == v
    | .contains => hasSubstring s.toList v.toList
    | .icontains => hasSubstring (lowerChars s) (lowerChars v)
    | _ => false        -- unreachable: resolveCondition never builds this
  | .amtCond op v =>
    match t.amount with
    | none => false
    | some a =>
      match op with
      | .exact => a == v
      | .gt => v < a
      | .lt => a < v
      | .gte => v ≤ a
      | .lte => a ≤ v
      | _ => false      -- unreachable: resolveCondition never builds this

/-- Resolve every key of a `filter_condition`, failing on the first bad one. -/
def resolve_filter : List (String × LookupVal) → Except String (List ResolvedCond)
  | [] => .ok []
  | (k, v) :: rest => do
    let c ← resolveCondition k v
    let cs ← resolve_filter rest
    .ok (c :: cs)

/-- All conditions of a rule hold of the row (AND semantics). -/
def rule_matches (rcs : List ResolvedCond) (t : Transaction) : Bool :=
  rcs.all (evalResolved t)

/-- The summary dictionary returned by `apply_transaction_rule`. -/
structure RuleResult where
  rule_id : Nat
  updated_count : Nat
  flag_count : Nat
  processed_count : Nat
deriving Repr, DecidableEq

/-- The category action of one rule on one row (`if rule.category and not
transaction.category`): set and save (signals fire).  Returns the store
and whether the row was modified. -/
def applyRuleCategoryStage (rule : TransactionRule) (db : DB) (t : Transaction) :
    DB × Bool :=
  match rule.category with
  | some c =>
    if c ≠ "" ∧ t.category = "" then
      (save_existing_transaction db { t with category := c }, true)
    else (db, false)
  | none => (db, false)

/-- The flag action of one rule on one row (`if rule.flag_message`):
`get_or_create` the `RULE_MATCH` flag, preserving an existing flag's
resolution.  Returns the store and whether a flag was created. -/
def applyRuleFlagStage (rule : TransactionRule) (db : DB) (tid : Nat) : DB × Bool :=
  match rule.flag_message with
  | some m =>
    if m ≠ "" then get_or_create_flag db tid "RULE_MATCH" m true
    else (db, false)
  | none => (db, false)

/-- The body of the per-transaction loop of `apply_transaction_rule`:
category stage, then flag stage, accumulating the update and flag
counters. -/
def applyRuleToTxn (rule : TransactionRule) (acc : DB × Nat × Nat) (tid : Nat) :
    DB × Nat × Nat :=
  match txnById acc.1 tid with
  | none => acc
  | some t =>
    let cs := applyRuleCategoryStage rule acc.1 t
    let fs := applyRuleFlagStage rule cs.1 t.id
    (fs.1, acc.2.1 + (if cs.2 then 1 else 0), acc.2.2 + (if fs.2 then 1 else 0))

/-- `apply_transaction_rule` (utils.py): filter the given transactions (or
the whole table) by the rule's `filter_condition` — raising
`ValidationError` when the filter is invalid — then apply the rule's
category and flag actions to every match.  (The matched-queryset second
return value of the source is discarded by every caller under
verification and is not modelled.) -/
def apply_transaction_rule (db : DB) (rule : TransactionRule)
    (transactions : Option (List Nat) := none) : Except String (DB × RuleResult) := do
  let querysetIds : List Nat := match transactions with
    | none => db.transactions.map (·.id)
    | some ids => ids
  let rcs ←
    match resolve_filter rule.filter_condition with
    | .ok rcs => Except.ok rcs
    | .error e => Except.error ("Invalid filter condition: " ++ e)
  let filteredIds := (db.transactions.filter (fun t =>
    querysetIds.contains t.id && rule_matches rcs t)).map (·.id)
  let (db, updated, flagc) := filteredIds.foldl (applyRuleToTxn rule) (db, 0, 0)
  -- `processed_count` re-evaluates the lazy queryset after the updates
  let processed := ((db.transactions.filter (fun t =>
    querysetIds.contains t.id && rule_matches rcs t)).map (·.id)).length
  .ok (db, ⟨rule.id, updated, flagc, processed⟩)

/-- `apply_transaction_rules` (utils.py): apply every rule in order (the
rule list stands for the cache / store contents). -/
def apply_transaction_rules (db : DB) (rules : List TransactionRule)
    (transactions : Option (List Nat) := none) : Except String DB :=
  match rules with
  | [] => .ok db
  | rule :: rest => do
    let (db, _) ← apply_transaction_rule db rule transactions
    apply_transaction_rules db rest transactions

/-! ## Bulk duplicate detection (utils.py `check_duplicates_bulk`) -/

/-- Equality of the grouping key `(amount, description, datetime)`. -/
def tripleEq (a b : Transaction) : Bool :=
  a.amount == b.amount && a.description == b.description && a.datetime == b.datetime

/-- Fuel-driven body of `groupByTriple` (the fuel, initially the list
length, dominates the recursion depth: each step drops at least the head). -/
def groupByTripleAux : Nat → List Transaction → List (List Transaction)
  | 0, _ => []
  | _, [] => []
  | fuel + 1, t :: ts =>
    (t :: ts.filter (tripleEq t)) ::
      groupByTripleAux fuel (ts.filter (fun u => !tripleEq t u))

/-- Group a list of transactions by their `(amount, description, datetime)`
triple, preserving first-occurrence order of groups (as a Python dict
does). -/
def groupByTriple (l : List Transaction) : List (List Transaction) :=
  groupByTripleAux l.length l

/-- Step 5's pair generation for one duplicate group: ordered pairs whose
first component is in the checking set — the second ranges over the whole
group for checking-set members and is skipped for outside members. -/
def genPairsGroup (checking : List Nat) (group : List Transaction) : List (Nat × Nat) :=
  let checking_in_group := group.filter (fun t => checking.contains t.id)
  let other_in_group := group.filter (fun t => !checking.contains t.id)
  checking_in_group.flatMap (fun t1 =>
    (checking_in_group.filter (fun t2 => t1.id ≠ t2.id)).map (fun t2 => (t1.id, t2.id)) ++
    other_in_group.map (fun t2 => (t1.id, t2.id)))

/-- The `checked_pairs` bookkeeping: drop pairs already generated, keeping
first occurrences. -/
def dedupPairs (l : List (Nat × Nat)) : List (Nat × Nat) :=
  l.foldl (fun acc p => if p ∈ acc then acc else acc ++ [p]) []

/-- The resolution statuses carried over from existing DUPLICATE flags on
the checking set, keyed by `(transaction, duplicates_transaction)` with
later rows overwriting earlier ones (the Python dict build). -/
def existingPairResolved (db : DB) (checking_ids : List Nat) (tid dupId : Nat) : Bool :=
  match (db.flags.filter (fun f =>
      checking_ids.contains f.transaction_id && f.flag_type == "DUPLICATE")).foldl
      (fun acc f =>
        if f.transaction_id == tid && f.duplicates_transaction_id == some dupId then some f
        else acc) none with
  | some f => f.is_resolved
  | none => false

/-- The ids of batch members actually present in the store
(`id__in` filtering of step 1). -/
def checkingIdsOf (db : DB) (transactions : List Nat) : List Nat :=
  (db.transactions.filter (fun t => transactions.contains t.id)).map (·.id)

/-- Steps 1–5 of `check_duplicates_bulk`: the ordered duplicate pairs
generated for a checking batch.  (The source's early returns — empty
checking set, no rows with an amount, no duplicate groups — each force
this value to `[]` as well, since every later stage filters against the
empty earlier stage; the store-side short-circuit lives in
`check_duplicates_bulk`.)  `IN` comparisons follow SQL: a `NULL` row value
never matches, and a `NULL` in the list matches nothing. -/
def duplicatePairsOf (db : DB) (transactions : List Nat) : List (Nat × Nat) :=
  -- Step 1: prepare the checking set
  let checking_txns := db.transactions.filter (fun t => transactions.contains t.id)
  let checking_ids := checking_txns.map (·.id)
  -- Step 2: triples of the batch rows with a non-null amount
  let checking_data := checking_txns.filter (fun t => t.amount.isSome)
  let checking_descriptions := checking_data.map (·.description)
  let checking_amounts := checking_data.map (·.amount)
  let checking_datetimes := checking_data.map (·.datetime)
  let candidates := db.transactions.filter (fun t =>
    checking_amounts.contains t.amount && checking_descriptions.contains t.description &&
    (match t.datetime with
     | some d => checking_datetimes.contains (some d)
     | none => false) &&
    t.amount.isSome)
  let duplicate_groups := (groupByTriple candidates).filter (fun g => 1 < g.length)
  -- Steps 3–4: fetch every transaction matching a duplicate triple, regroup,
  -- drop singletons
  let duplicate_transactions := db.transactions.filter (fun u =>
    duplicate_groups.any (fun g => g.any (fun t => tripleEq t u)))
  let transaction_groups := (groupByTriple duplicate_transactions).filter (fun g => 1 < g.length)
  -- Step 5: ordered pairs, first components restricted to the checking set
  dedupPairs (transaction_groups.flatMap (genPairsGroup checking_ids))

/-- `check_duplicates_bulk` (utils.py): find duplicate groups restricted to
the checking batch's `(description, amount, datetime)` values, generate
ordered pairs per group (steps 1–5, `duplicatePairsOf`), and bulk-insert
DUPLICATE flags (insert-or-ignore on the natural key), preserving
resolution status of existing flags when asked.  Returns the store and the
generated ordered pairs (from which the source's returned flag map is
built one-to-one).  Every short-circuit returns the store untouched, so
the delete of the not-preserving branch happens (as in the source) only
when pairs were generated. -/
def check_duplicates_bulk (db : DB) (transactions : List Nat)
    (preserve_resolution : Bool := true) : DB × List (Nat × Nat) :=
  let duplicate_pairs := duplicatePairsOf db transactions
  if duplicate_pairs = [] then (db, []) else
  let checking_ids := checkingIdsOf db transactions
  -- Steps 6–7: resolution carry-over, flag rows to create
  let flags_to_create := duplicate_pairs.map (fun p =>
    (p.1, p.2, dupMessage p.2,
     if preserve_resolution then existingPairResolved db checking_ids p.1 p.2 else false))
  -- Step 8: optional delete, then bulk insert-or-ignore
  let db := if preserve_resolution then db else
    { db with flags := db.flags.filter (fun f =>
        !(checking_ids.contains f.transaction_id && f.flag_type == "DUPLICATE")) }
  let db := flags_to_create.foldl (fun db fc =>
    bulk_insert_flag_ignore_conflict db fc.1 (some fc.2.1) "DUPLICATE" fc.2.2.1 true fc.2.2.2) db
  (db, duplicate_pairs)

/-! ## Single-record and bulk flows (utils.py) -/

/-- `merge_transaction_update` (utils.py): overlay the update payload's
present keys on the transaction's current field values and extract the
`custom_flag` payload. -/
def merge_transaction_update (transaction : Transaction) (data : RawRecord) :
    RawRecord × Option CustomFlagPayload :=
  let merged : RawRecord :=
    { description := some (data.description.getD transaction.description),
      category := some (data.category.getD transaction.category),
      amount := some (data.amount.getD
        (match transaction.amount with | some q => .num q | none => .null)),
      datetime := some (data.datetime.getD
        (match transaction.datetime with | some d => .obj d | none => .null)),
      custom_flag := none }
  (merged, data.custom_flag)

/-- The rejection message of `create_transaction_with_flags`. -/
def emptyRecordError : String :=
  "Transaction must have at least a description, category, or valid amount"

/-- `create_transaction_with_flags` (utils.py): clean, reject empty
records, persist (signals fire), apply rules, re-derive validation flags
from the post-rule row and the original data, create them, then run
duplicate detection for the new row.  Returns the store and the new
transaction's id; the rejection raises (`Except.error`), persisting
nothing. -/
def create_transaction_with_flags (env : Env) (rules : List TransactionRule)
    (db : DB) (data : RawRecord) : Except String (DB × Nat) := do
  let cleaned := clean_transaction_data env data
  if cleaned.amount = none ∧ cleaned.description = "" ∧ cleaned.category = "" then
    Except.error emptyRecordError
  else do
    let (db, tid) := save_new_transaction db cleaned
    let db ← apply_transaction_rules db rules (some [tid])
    -- refresh_from_db: re-read the row with any rule-driven changes
    let t := (txnById db tid).getD ⟨tid, cleaned.description, cleaned.category,
      cleaned.amount, cleaned.datetime⟩
    let validation_flags := transaction_validation_flags env t (some data)
    let (db, _) := create_transaction_flags db tid validation_flags
    let (db, _) := check_duplicates_bulk db [tid]
    Except.ok (db, tid)

/-- `update_transaction_with_flags` (utils.py): merge and clean the
payload, clear this transaction's unresolved system flags and unresolved
DUPLICATE flags referencing it, write the cleaned fields (signals fire),
apply rules, re-derive and create validation flags, re-run duplicate
detection, then upsert any caller-supplied custom flag. -/
def update_transaction_with_flags (env : Env) (rules : List TransactionRule)
    (db : DB) (transaction : Transaction) (data : RawRecord) : Except String DB := do
  let (merged_data, custom_flag) := merge_transaction_update transaction data
  let cleaned := clean_transaction_data env merged_data
  let db := clear_transaction_flags_bulk db [transaction.id]
    ["PARSE_ERROR", "MISSING_DATA", "RULE_MATCH", "DUPLICATE"] true
  let db := { db with flags := db.flags.filter (fun f =>
      !(f.duplicates_transaction_id == some transaction.id && f.flag_type == "DUPLICATE" &&
        !f.is_resolved)) }
  let t' : Transaction := { transaction with
    description := cleaned.description, category := cleaned.category,
    amount := cleaned.amount, datetime := cleaned.datetime }
  let db := save_existing_transaction db t'
  let db ← apply_transaction_rules db rules (some [transaction.id])
  let t'' := (txnById db transaction.id).getD t'
  let validation_flags := transaction_validation_flags env t'' (some merged_data)
  let (db, _) := create_transaction_flags db transaction.id validation_flags
  let (db, _) := check_duplicates_bulk db [transaction.id]
  let db := process_custom_flag db custom_flag transaction.id
  Except.ok db

/-- The empty-record rejection predicate shared by the single and bulk
creation paths. -/
def isEmptyRecord (c : CleanedData) : Prop :=
  c.amount = none ∧ c.description = "" ∧ c.category = ""

instance (c : CleanedData) : Decidable (isEmptyRecord c) := by
  unfold isEmptyRecord; infer_instance

/-- One row insert of the `bulk_create` in `create_clean_transactions`
(no save signals fire). -/
def bulkInsertRowStep (acc : DB × List Nat) (c : CleanedData) : DB × List Nat :=
  let (db, ids) := acc
  ({ db with
      transactions := db.transactions ++
        [⟨db.nextTxnId, c.description, c.category, c.amount, c.datetime⟩],
      nextTxnId := db.nextTxnId + 1 },
   ids ++ [db.nextTxnId])

/-- `create_clean_transactions` (utils.py): clean every record, silently
skip the empty ones, and bulk-insert the survivors (`bulk_create` fires no
save signals).  Returns the store, the new ids, the surviving cleaned
data, and the surviving original data. -/
def create_clean_transactions (env : Env) (db : DB) (data_list : List RawRecord) :
    DB × List Nat × List CleanedData × List RawRecord :=
  let surviving := (data_list.map (fun d => (clean_transaction_data env d, d))).filter
    (fun p => !decide (isEmptyRecord p.1))
  let cleaned_data_list := surviving.map (·.1)
  let valid_original_data := surviving.map (·.2)
  let (db, ids) := cleaned_data_list.foldl bulkInsertRowStep (db, [])
  (db, ids, cleaned_data_list, valid_original_data)

/-- `create_validation_flags_bulk` (utils.py) as called by the bulk
pipeline (`clear_existing_flags=False`): generate validation flags for
every transaction and bulk-insert them with `ignore_conflicts=True`. -/
def create_validation_flags_bulk (env : Env) (db : DB) (txnIds : List Nat)
    (original_data_map : Nat → Option RawRecord) : DB :=
  txnIds.foldl (fun db tid =>
    match txnById db tid with
    | none => db
    | some t =>
      (transaction_validation_flags env t (original_data_map tid)).foldl (fun db fd =>
        bulk_insert_flag_ignore_conflict db tid none fd.flag_type fd.message
          (determine_flag_resolvability fd) false) db) db

/-- `create_transactions_with_flags_bulk` (utils.py): bulk-create cleaned
records, bulk-apply the rules, bulk-create validation flags from the
refreshed rows and the surviving original data, then run duplicate
detection once over the whole batch.  Returns the store and the new ids. -/
def create_transactions_with_flags_bulk (env : Env) (rules : List TransactionRule)
    (db : DB) (data_list : List RawRecord) : Except String (DB × List Nat) := do
  if data_list = [] then Except.ok (db, []) else
  let (db, ids, _, original_data_list) := create_clean_transactions env db data_list
  if ids = [] then Except.ok (db, []) else do
  let db ← apply_transaction_rules db rules (some ids)
  let original_data_map : Nat → Option RawRecord := fun tid =>
    match ids.findIdx? (· == tid) with
    | some i => original_data_list[i]?
    | none => none
  let db := create_validation_flags_bulk env db ids original_data_map
  let (db, _) := check_duplicates_bulk db ids
  Except.ok (db, ids)

/-! ## Concrete fixtures for witnesses and counterexamples -/

/-- A fixed environment: now = 2020-01-01T00:00:00+00:00, with a `dateutil`
fallback that fails on every input. -/
def sampleEnv : Env := ⟨⟨2020, 1, 1, 0, 0, 0, 0, some 0⟩, fun _ => none⟩

/-- An aware datetime used by concrete stores. -/
def dtA : PDateTime := ⟨2023, 1, 1, 0, 0, 0, 0, some 0⟩

/-- A second, different aware datetime. -/
def dtB : PDateTime := ⟨2024, 6, 15, 12, 30, 0, 0, some 0⟩

/-- The number of stored flags with a given natural key. -/
def flagKeyCount (db : DB) (tid : Nat) (ft msg : String) : Nat :=
  (db.flags.filter (flagKeyMatch tid ft msg)).length

/-- The data fields of a transaction row (everything except the primary key). -/
def txnData (t : Transaction) : String × String × Option Rat × Option PDateTime :=
  (t.description, t.category, t.amount, t.datetime)

/-! ## C8 — amount parsing -/

/-- The raw record of the C8 scenario. -/
def coffeeRecord : RawRecord :=
  { description := some "Coffee", amount := some (.str "not-a-number") }

/-- C8: `parse_amount` returns absent plus the fixed `PARSE_ERROR` message
for absent/blank/whitespace-only input, absent plus a `PARSE_ERROR`
quoting the raw input for non-numeric input, and the exact decimal value
with no error otherwise; and creating a transaction from
`{description: "Coffee", amount: "not-a-number"}` stores an absent amount
with exactly one `PARSE_ERROR` flag, whose message contains
`"not-a-number"` and which is not resolvable. -/
theorem C8_parse_amount_correct :
    (parse_amount none = (none, some ⟨"PARSE_ERROR", "Missing or invalid amount value"⟩)) ∧
    (∀ s, pyStrip s = "" →
      parse_amount (some s) = (none, some ⟨"PARSE_ERROR", "Missing or invalid amount value"⟩)) ∧
    (∀ s, pyStrip s ≠ "" → parseDecimal s = none →
      parse_amount (some s) =
        (none, some ⟨"PARSE_ERROR", "Could not parse amount: '" ++ s ++ "'"⟩)) ∧
    (∀ s q, pyStrip s ≠ "" → parseDecimal s = some q →
      parse_amount (some s) = (some q, none)) ∧
    (∃ db1 tid, create_transaction_with_flags sampleEnv [] {} coffeeRecord = .ok (db1, tid) ∧
      (∀ t ∈ db1.transactions, t.amount = none) ∧
      (db1.flags.filter (fun f => f.flag_type == "PARSE_ERROR")).length = 1 ∧
      (∀ f ∈ db1.flags, f.flag_type = "PARSE_ERROR" →
        f.transaction_id = tid ∧ hasSubstring f.message.toList "not-a-number".toList = true ∧
        f.is_resolvable = false)) := by
  refine ⟨rfl, ?_, ?_, ?_, ?_⟩
  · intro s h
    simp [parse_amount, h]
  · intro s h1 h2
    simp [parse_amount, h1, h2]
  · intro s q h1 h2
    simp [parse_amount, h1, h2]
  · exact ⟨_, _, rfl, by decide, by decide, by decide⟩

/-- Witness for C8: the hypothesis-bearing parts applied at concrete
inputs. -/
theorem C8_parse_amount_correct_witness :
    parse_amount (some "  ") = (none, some ⟨"PARSE_ERROR", "Missing or invalid amount value"⟩) ∧
    parse_amount (some "not-a-number") =
      (none, some ⟨"PARSE_ERROR", "Could not parse amount: 'not-a-number'"⟩) ∧
    parse_amount (some "10.00") = (some 10, none) :=
  ⟨C8_parse_amount_correct.2.1 "  " (by decide),
   C8_parse_amount_correct.2.2.1 "not-a-number" (by decide) (by decide),
   C8_parse_amount_correct.2.2.2.1 "10.00" 10 (by decide) (by decide)⟩

/-! ## C9 — datetime parsing -/

/-- The input matches none of `parse_datetime`'s supported formats: both
Z-branch formats fail on the `Z`-rewritten string, both T-branch formats
and all seven common formats fail on the raw string. -/
def matchesNoFormat (s : String) : Prop :=
  pyStrptime fmtIsoTMicroTz (replaceZ s) = none ∧
  pyStrptime fmtIsoTTz (replaceZ s) = none ∧
  tryFormats [fmtIsoTMicro, fmtIsoT] s = none ∧
  tryFormats commonFormats s = none

instance (s : String) : Decidable (matchesNoFormat s) := by
  unfold matchesNoFormat; infer_instance

/-- The raw record of the C9 scenario (blank datetime). -/
def blankDtRecord : RawRecord :=
  { description := some "X", amount := some (.str "10.00"), datetime := some (.str "") }

/-- C9: `parse_datetime` on blank input returns the current timestamp with
no error — so the blank-datetime scenario record cleans to `now` with no
datetime `PARSE_ERROR` flag — whereas a non-blank input matching no
supported format whose `dateutil` fallback also fails yields absent plus a
`PARSE_ERROR` quoting the raw input. -/
theorem C9_parse_datetime_correct :
    (∀ env s, s = "" ∨ pyStrip s = "" → parse_datetime env s = (some env.now, none)) ∧
    (∀ env s, ¬(s = "" ∨ pyStrip s = "") → matchesNoFormat s → env.dateutilParse s = none →
      parse_datetime env s =
        (none, some ⟨"PARSE_ERROR", "Could not parse date: '" ++ s ++ "'"⟩)) ∧
    (∀ env, clean_transaction_data env blankDtRecord =
        ⟨"X", "", some 10, some env.now⟩ ∧
      transaction_validation_flags env ⟨1, "X", "", some 10, some env.now⟩ (some blankDtRecord) =
        [⟨"MISSING_DATA", "Missing category"⟩]) := by
  refine ⟨?_, ?_, ?_⟩
  · intro env s h
    simp [parse_datetime, h]
  · intro env s h hfmt hdu
    obtain ⟨h1, h2, h3, h4⟩ := hfmt
    rw [parse_datetime, if_neg h]
    split_ifs <;> simp [h1, h2, h3, h4, hdu]
  · intro env
    constructor
    · simp [clean_transaction_data, blankDtRecord, parseAmountField, parse_amount,
        parse_datetime]
      decide
    · simp [transaction_validation_flags, blankDtRecord, parseAmountField, parse_amount,
        parseDatetimeFieldFlag, parse_datetime]
      decide

/-- Witness for C9: blank input and a fully unparseable input under the
sample environment. -/
theorem C9_parse_datetime_correct_witness :
    parse_datetime sampleEnv "  " = (some sampleEnv.now, none) ∧
    parse_datetime sampleEnv "??!!" =
      (none, some ⟨"PARSE_ERROR", "Could not parse date: '??!!'"⟩) :=
  ⟨C9_parse_datetime_correct.1 sampleEnv "  " (by decide),
   C9_parse_datetime_correct.2.1 sampleEnv "??!!" (by decide) (by decide) rfl⟩

/-! ## C5 — rule evaluation anomalies raise -/

/-- The store of the C5 counterexample: one transaction an anomalous rule
is evaluated against. -/
def dbC5 : DB :=
  { transactions := [⟨1, "Coffee shop", "", some 5, some dtA⟩],
    flags := [], nextTxnId := 2, nextFlagId := 1 }

/-- A rule whose `filter_condition` carries an unrecognized operator. -/
def ruleBogus : TransactionRule :=
  { id := 1, filter_condition := [("amount__bogus", .num 5)], category := some "Dining" }

/-- Counterexample to C5: evaluating a rule with an unrecognized operator
against a transaction does not silently fail to match — the source wraps
the lookup failure and raises `ValidationError("Invalid filter
condition: …")` (`Except.error` here). -/
theorem C5_counterexample :
    apply_transaction_rule dbC5 ruleBogus none =
      .error "Invalid filter condition: Unsupported lookup 'bogus'" := by
  decide

/-- C5 (amended): a `filter_condition` whose resolution fails — an
unrecognized operator or a field the model cannot resolve — makes
`apply_transaction_rule` raise a `ValidationError` wrapping the lookup
error, for every store and every transaction selection; the anomaly is
not silently swallowed. -/
theorem C5_amended_rule_anomalies_raise :
    ∀ db rule transactions e, resolve_filter rule.filter_condition = .error e →
      apply_transaction_rule db rule transactions =
        .error ("Invalid filter condition: " ++ e) := by
  intro db rule transactions e h
  simp [apply_transaction_rule, h, Bind.bind, Except.bind]

/-- Witness for C5 (amended): the concrete anomalous rule. -/
theorem C5_amended_witness :
    apply_transaction_rule dbC5 ruleBogus (some [1]) =
      .error ("Invalid filter condition: " ++ "Unsupported lookup 'bogus'") :=
  C5_amended_rule_anomalies_raise dbC5 ruleBogus (some [1]) "Unsupported lookup 'bogus'"
    (by decide)

/-! ## C3 — empty-record handling -/

theorem surviving_map_fst (env : Env) (l : List RawRecord) :
    ((l.map (fun d => (clean_transaction_data env d, d))).filter
        (fun p => !decide (isEmptyRecord p.1))).map Prod.fst =
      (l.map (clean_transaction_data env)).filter (fun c => !decide (isEmptyRecord c)) := by
  induction l with
  | nil => rfl
  | cons d rest ih =>
    by_cases h : isEmptyRecord (clean_transaction_data env d) <;>
      simp [h, ih]

theorem foldl_bulkInsert_txnData (cs : List CleanedData) (db : DB) (ids : List Nat) :
    (cs.foldl bulkInsertRowStep (db, ids)).1.transactions.map txnData =
      db.transactions.map txnData ++
        cs.map (fun c => (c.description, c.category, c.amount, c.datetime)) := by
  induction cs generalizing db ids with
  | nil => simp
  | cons c rest ih =>
    simp only [List.foldl_cons, bulkInsertRowStep]
    rw [ih]
    simp [txnData]

theorem foldl_bulkInsert_flags (cs : List CleanedData) (db : DB) (ids : List Nat) :
    (cs.foldl bulkInsertRowStep (db, ids)).1.flags = db.flags := by
  induction cs generalizing db ids with
  | nil => rfl
  | cons c rest ih => simpa [bulkInsertRowStep] using ih _ _

theorem foldl_bulkInsert_ids_length (cs : List CleanedData) (db : DB) (ids : List Nat) :
    (cs.foldl bulkInsertRowStep (db, ids)).2.length = ids.length + cs.length := by
  induction cs generalizing db ids with
  | nil => simp
  | cons c rest ih =>
    simp only [List.foldl_cons, bulkInsertRowStep]
    rw [ih]
    simp
    omega

/-- C3: a record that cleans to absent amount, empty description and empty
category makes the single-record create raise the validation failure
(persisting nothing: the error carries no store), while the bulk path is
total, silently drops exactly those records, appends one row per survivor
carrying its cleaned data, touches no flags, and — with no rules — the
whole bulk pipeline raises nothing. -/
theorem C3_empty_record_handling :
    (∀ env rules db data, isEmptyRecord (clean_transaction_data env data) →
      create_transaction_with_flags env rules db data = .error emptyRecordError) ∧
    (∀ env db data_list,
      (create_clean_transactions env db data_list).2.2.1 =
        (data_list.map (clean_transaction_data env)).filter
          (fun c => !decide (isEmptyRecord c)) ∧
      (create_clean_transactions env db data_list).1.flags = db.flags ∧
      (create_clean_transactions env db data_list).1.transactions.map txnData =
        db.transactions.map txnData ++
          (create_clean_transactions env db data_list).2.2.1.map
            (fun c => (c.description, c.category, c.amount, c.datetime)) ∧
      (create_clean_transactions env db data_list).2.1.length =
        (create_clean_transactions env db data_list).2.2.1.length) ∧
    (∀ env db data_list,
      ∃ r, create_transactions_with_flags_bulk env [] db data_list = .ok r) := by
  refine ⟨?_, ?_, ?_⟩
  · intro env rules db data h
    obtain ⟨h1, h2, h3⟩ := h
    simp [create_transaction_with_flags, h1, h2, h3]
  · intro env db data_list
    refine ⟨?_, ?_, ?_, ?_⟩
    · simp [create_clean_transactions, surviving_map_fst]
    · simp [create_clean_transactions, foldl_bulkInsert_flags]
    · simp only [create_clean_transactions]
      rw [foldl_bulkInsert_txnData, surviving_map_fst]
    · simp only [create_clean_transactions]
      rw [foldl_bulkInsert_ids_length, surviving_map_fst]
      simp
  · intro env db data_list
    simp only [create_transactions_with_flags_bulk]
    split_ifs <;>
      simp [apply_transaction_rules, Bind.bind, Except.bind]

/-- Witness for C3: a concrete empty record is rejected by the single path
and dropped by the bulk path, which still creates the surviving record. -/
theorem C3_empty_record_handling_witness :
    create_transaction_with_flags sampleEnv [] {}
      ⟨some "", some "", some (.str ""), none, none⟩ = .error emptyRecordError ∧
    (create_clean_transactions sampleEnv {}
      [⟨some "", some "", some (.str ""), none, none⟩, coffeeRecord]).2.2.1 =
      [clean_transaction_data sampleEnv coffeeRecord] ∧
    (∃ r, create_transactions_with_flags_bulk sampleEnv [] {}
      [⟨some "", some "", some (.str ""), none, none⟩, coffeeRecord] = .ok r) := by
  refine ⟨C3_empty_record_handling.1 sampleEnv [] {} _ (by decide), ?_, ?_⟩
  · rw [(C3_empty_record_handling.2.1 sampleEnv {} _).1]
    decide
  · exact C3_empty_record_handling.2.2 sampleEnv {} _

/-! ## C7 — idempotent flag identity -/

/-- A flag with the given natural key is stored. -/
def hasFlagKey (db : DB) (tid : Nat) (ft msg : String) : Bool :=
  db.flags.any (flagKeyMatch tid ft msg)

theorem find?_eq_none_of_count_zero (db : DB) (tid : Nat) (ft msg : String)
    (h : flagKeyCount db tid ft msg = 0) :
    db.flags.find? (flagKeyMatch tid ft msg) = none := by
  rw [List.find?_eq_none]
  intro f hf hmatch
  have : f ∈ db.flags.filter (flagKeyMatch tid ft msg) := List.mem_filter.2 ⟨hf, hmatch⟩
  rw [flagKeyCount, List.length_eq_zero] at h
  simp [h] at this

theorem get_or_create_flag_has_key (db : DB) (tid : Nat) (ft msg : String) (rv rs : Bool) :
    hasFlagKey (get_or_create_flag db tid ft msg rv rs).1 tid ft msg = true := by
  unfold get_or_create_flag
  cases hfind : db.flags.find? (flagKeyMatch tid ft msg) with
  | some f =>
    have := List.find?_some hfind
    have hmem := List.mem_of_find?_eq_some hfind
    simp only [hasFlagKey, List.any_eq_true]
    exact ⟨f, hmem, this⟩
  | none =>
    simp [hasFlagKey, List.any_eq_true, flagKeyMatch]

theorem get_or_create_flag_of_has_key (db : DB) (tid : Nat) (ft msg : String) (rv rs : Bool)
    (h : hasFlagKey db tid ft msg = true) :
    get_or_create_flag db tid ft msg rv rs = (db, false) := by
  unfold get_or_create_flag
  cases hfind : db.flags.find? (flagKeyMatch tid ft msg) with
  | some f => rfl
  | none =>
    exfalso
    obtain ⟨f, hmem, hmatch⟩ := List.any_eq_true.1 h
    have := List.find?_eq_none.1 hfind f hmem
    exact this hmatch

theorem get_or_create_flag_mono (db : DB) (tid tid' : Nat) (ft ft' msg msg' : String)
    (rv rs : Bool) (h : hasFlagKey db tid ft msg = true) :
    hasFlagKey (get_or_create_flag db tid' ft' msg' rv rs).1 tid ft msg = true := by
  unfold get_or_create_flag
  cases hfind : db.flags.find? (flagKeyMatch tid' ft' msg') with
  | some f => exact h
  | none =>
    obtain ⟨f, hmem, hmatch⟩ := List.any_eq_true.1 h
    exact List.any_eq_true.2 ⟨f, List.mem_append_left _ hmem, hmatch⟩

theorem createFlagStep_preserves_key (tid' : Nat) (acc : DB × List FlagSpec) (fd : FlagSpec)
    (tid : Nat) (ft msg : String) (h : hasFlagKey acc.1 tid ft msg = true) :
    hasFlagKey (createFlagStep tid' acc fd).1 tid ft msg = true := by
  unfold createFlagStep
  exact get_or_create_flag_mono _ _ _ _ _ _ _ _ _ h

theorem create_transaction_flags_preserves_key (tid' tid : Nat) (ft msg : String)
    (fs : List FlagSpec) (db : DB) (acc : List FlagSpec)
    (h : hasFlagKey db tid ft msg = true) :
    hasFlagKey (fs.foldl (createFlagStep tid') (db, acc)).1 tid ft msg = true := by
  induction fs generalizing db acc with
  | nil => exact h
  | cons fd rest ih =>
    simp only [List.foldl_cons]
    have h1 := createFlagStep_preserves_key tid' (db, acc) fd tid ft msg h
    have : createFlagStep tid' (db, acc) fd =
        ((createFlagStep tid' (db, acc) fd).1, (createFlagStep tid' (db, acc) fd).2) := rfl
    rw [this]
    exact ih _ _ h1

theorem create_transaction_flags_all_keys (tid : Nat) (fs : List FlagSpec) (db : DB)
    (acc : List FlagSpec) :
    ∀ fd ∈ fs, hasFlagKey (fs.foldl (createFlagStep tid) (db, acc)).1 tid
      fd.flag_type fd.message = true := by
  induction fs generalizing db acc with
  | nil => intro fd h; cases h
  | cons fd0 rest ih =>
    intro fd hfd
    rcases List.mem_cons.1 hfd with h | h
    · subst h
      simp only [List.foldl_cons]
      have hkey : hasFlagKey (createFlagStep tid (db, acc) fd).1 tid fd.flag_type fd.message
          = true := by
        unfold createFlagStep
        exact get_or_create_flag_has_key _ _ _ _ _ _
      have : createFlagStep tid (db, acc) fd =
          ((createFlagStep tid (db, acc) fd).1, (createFlagStep tid (db, acc) fd).2) := rfl
      rw [this]
      exact create_transaction_flags_preserves_key _ _ _ _ _ _ _ hkey
    · simp only [List.foldl_cons]
      have h2 : createFlagStep tid (db, acc) fd0 =
          ((createFlagStep tid (db, acc) fd0).1, (createFlagStep tid (db, acc) fd0).2) := rfl
      rw [h2]
      exact ih _ _ fd h

theorem create_transaction_flags_noop (tid : Nat) (fs : List FlagSpec) (db : DB)
    (acc : List FlagSpec) (h : ∀ fd ∈ fs, hasFlagKey db tid fd.flag_type fd.message = true) :
    fs.foldl (createFlagStep tid) (db, acc) = (db, acc) := by
  induction fs generalizing db acc with
  | nil => rfl
  | cons fd rest ih =>
    simp only [List.foldl_cons]
    have hstep : createFlagStep tid (db, acc) fd = (db, acc) := by
      unfold createFlagStep
      rw [get_or_create_flag_of_has_key db tid fd.flag_type fd.message _ _
        (h fd (List.mem_cons_self _ _))]
      rfl
    rw [hstep]
    exact ih _ _ (fun fd' h' => h fd' (List.mem_cons_of_mem _ h'))

/-- C7: creating the same `(transaction, flag_type, message)` natural key
twice never yields two stored flags and is not an error: a second
`get_or_create` on a fresh key leaves exactly one row and reports
`created = false`; re-running `create_transaction_flags` with the same
flag dicts returns the store unchanged with nothing created; and a second
insert-or-ignore bulk insert of the same key is the identity. -/
theorem C7_flag_identity_idempotent :
    (∀ db tid ft msg rv rs, flagKeyCount db tid ft msg = 0 →
      flagKeyCount
        (get_or_create_flag (get_or_create_flag db tid ft msg rv rs).1 tid ft msg rv rs).1
        tid ft msg = 1 ∧
      (get_or_create_flag (get_or_create_flag db tid ft msg rv rs).1 tid ft msg rv rs).2 =
        false) ∧
    (∀ db tid fs, create_transaction_flags (create_transaction_flags db tid fs).1 tid fs =
      ((create_transaction_flags db tid fs).1, [])) ∧
    (∀ db tid dupId ft msg rv rs,
      bulk_insert_flag_ignore_conflict
        (bulk_insert_flag_ignore_conflict db tid dupId ft msg rv rs) tid dupId ft msg rv rs =
      bulk_insert_flag_ignore_conflict db tid dupId ft msg rv rs) := by
  refine ⟨?_, ?_, ?_⟩
  · intro db tid ft msg rv rs h
    have hfind := find?_eq_none_of_count_zero db tid ft msg h
    have hfilter : db.flags.filter (flagKeyMatch tid ft msg) = [] := by
      rw [flagKeyCount, List.length_eq_zero] at h
      exact h
    have h1 : get_or_create_flag db tid ft msg rv rs =
        ({ db with
            flags := db.flags ++ [⟨db.nextFlagId, tid, none, ft, msg, rv, rs⟩],
            nextFlagId := db.nextFlagId + 1 }, true) := by
      unfold get_or_create_flag
      rw [hfind]
    rw [h1]
    constructor
    · have h2 := get_or_create_flag_of_has_key
        { db with
            flags := db.flags ++ [⟨db.nextFlagId, tid, none, ft, msg, rv, rs⟩],
            nextFlagId := db.nextFlagId + 1 } tid ft msg rv rs
        (by simp [hasFlagKey, List.any_eq_true, flagKeyMatch])
      rw [h2]
      simp [flagKeyCount, List.filter_append, hfilter, flagKeyMatch]
    · have h2 := get_or_create_flag_of_has_key
        { db with
            flags := db.flags ++ [⟨db.nextFlagId, tid, none, ft, msg, rv, rs⟩],
            nextFlagId := db.nextFlagId + 1 } tid ft msg rv rs
        (by simp [hasFlagKey, List.any_eq_true, flagKeyMatch])
      rw [h2]
  · intro db tid fs
    unfold create_transaction_flags
    exact create_transaction_flags_noop tid fs _ []
      (fun fd hfd => create_transaction_flags_all_keys tid fs db [] fd hfd)
  · intro db tid dupId ft msg rv rs
    unfold bulk_insert_flag_ignore_conflict
    by_cases h : db.flags.any (flagKeyMatch tid ft msg) = true
    · simp [h]
    · simp only [Bool.not_eq_true] at h
      simp [h, List.any_append, flagKeyMatch]

/-- Witness for C7: the hypothesis-bearing first part at a concrete fresh
key on the empty store. -/
theorem C7_flag_identity_idempotent_witness :
    flagKeyCount
      (get_or_create_flag (get_or_create_flag {} 1 "CUSTOM" "note" true false).1
        1 "CUSTOM" "note" true false).1 1 "CUSTOM" "note" = 1 :=
  (C7_flag_identity_idempotent.1 {} 1 "CUSTOM" "note" true false (by decide)).1

/-! ## C6 — duplicate symmetry -/

theorem foldl_dedup_mem (l : List (Nat × Nat)) (acc : List (Nat × Nat)) (x : Nat × Nat) :
    x ∈ l.foldl (fun acc p => if p ∈ acc then acc else acc ++ [p]) acc ↔
      x ∈ acc ∨ x ∈ l := by
  induction l generalizing acc with
  | nil => simp
  | cons p rest ih =>
    simp only [List.foldl_cons]
    by_cases hp : p ∈ acc
    · rw [if_pos hp, ih]
      constructor
      · rintro (h | h)
        · exact Or.inl h
        · exact Or.inr (List.mem_cons_of_mem _ h)
      · rintro (h | h)
        · exact Or.inl h
        · rcases List.mem_cons.1 h with h | h
          · subst h; exact Or.inl hp
          · exact Or.inr h
    · rw [if_neg hp, ih]
      simp only [List.mem_append, List.mem_singleton, List.mem_cons]
      tauto

theorem mem_dedupPairs (l : List (Nat × Nat)) (x : Nat × Nat) :
    x ∈ dedupPairs l ↔ x ∈ l := by
  rw [dedupPairs, foldl_dedup_mem]
  simp

theorem mem_genPairsGroup_intro (checking : List Nat) (g : List Transaction)
    (t1 t2 : Transaction) (h1 : t1 ∈ g) (h2 : t2 ∈ g)
    (hc1 : checking.contains t1.id = true) (hc2 : checking.contains t2.id = true)
    (hne : t1.id ≠ t2.id) :
    (t1.id, t2.id) ∈ genPairsGroup checking g := by
  unfold genPairsGroup
  refine List.mem_flatMap.2 ⟨t1, List.mem_filter.2 ⟨h1, hc1⟩, List.mem_append_left _ ?_⟩
  exact List.mem_map.2 ⟨t2,
    List.mem_filter.2 ⟨List.mem_filter.2 ⟨h2, hc2⟩, by simpa using hne⟩, rfl⟩

theorem mem_genPairsGroup_elim (checking : List Nat) (g : List Transaction) (a b : Nat)
    (hmem : (a, b) ∈ genPairsGroup checking g) :
    ∃ t1 t2, t1 ∈ g ∧ t2 ∈ g ∧ a = t1.id ∧ b = t2.id ∧
      checking.contains t1.id = true ∧ t1.id ≠ t2.id := by
  unfold genPairsGroup at hmem
  obtain ⟨t1, ht1f, hin⟩ := List.mem_flatMap.1 hmem
  obtain ⟨ht1g, hc1⟩ := List.mem_filter.1 ht1f
  rcases List.mem_append.1 hin with hL | hR
  · obtain ⟨t2, ht2f, heq⟩ := List.mem_map.1 hL
    obtain ⟨ht2f', hne⟩ := List.mem_filter.1 ht2f
    obtain ⟨ht2g, _⟩ := List.mem_filter.1 ht2f'
    obtain ⟨ha, hb⟩ := Prod.mk.injEq .. ▸ heq
    exact ⟨t1, t2, ht1g, ht2g, ha.symm, hb.symm, hc1, by simpa using hne⟩
  · obtain ⟨t2, ht2f, heq⟩ := List.mem_map.1 hR
    obtain ⟨ht2g, hno⟩ := List.mem_filter.1 ht2f
    obtain ⟨ha, hb⟩ := Prod.mk.injEq .. ▸ heq
    refine ⟨t1, t2, ht1g, ht2g, ha.symm, hb.symm, hc1, ?_⟩
    intro h
    rw [h] at hc1
    simp only [List.mem_filter, Bool.not_eq_eq_eq_not, Bool.not_true] at hno
    exact absurd (hc1.symm.trans hno) (by simp)

theorem genPairsGroup_symm (checking : List Nat) (g : List Transaction) (a b : Nat)
    (hmem : (a, b) ∈ genPairsGroup checking g) (hb : checking.contains b = true) :
    (b, a) ∈ genPairsGroup checking g := by
  obtain ⟨t1, t2, h1, h2, ha, hb', hc1, hne⟩ := mem_genPairsGroup_elim checking g a b hmem
  subst ha; subst hb'
  exact mem_genPairsGroup_intro checking g t2 t1 h2 h1 hb hc1 (Ne.symm hne)

theorem check_duplicates_bulk_pairs (db : DB) (ids : List Nat) (pres : Bool) :
    (check_duplicates_bulk db ids pres).2 = duplicatePairsOf db ids := by
  unfold check_duplicates_bulk
  by_cases h : duplicatePairsOf db ids = [] <;> simp [h]

theorem duplicatePairsOf_symm (db : DB) (ids : List Nat) (a b : Nat)
    (hmem : (a, b) ∈ duplicatePairsOf db ids)
    (hb : b ∈ checkingIdsOf db ids) :
    (b, a) ∈ duplicatePairsOf db ids := by
  simp only [duplicatePairsOf] at hmem ⊢
  rw [mem_dedupPairs] at hmem ⊢
  obtain ⟨g, hg, hpair⟩ := List.mem_flatMap.1 hmem
  refine List.mem_flatMap.2 ⟨g, hg, genPairsGroup_symm _ g a b hpair ?_⟩
  exact List.elem_eq_true_of_mem (by simpa [checkingIdsOf] using hb)

/-- The store of the C6/C1 counterexamples: two rows with equal
`(description, amount, datetime)` and present amount. -/
def dbC6 : DB :=
  { transactions := [⟨1, "X", "", some 5, some dtA⟩, ⟨2, "X", "", some 5, some dtA⟩],
    flags := [], nextTxnId := 3, nextFlagId := 1 }

/-- Counterexample to C6: with only transaction 1 in the checking batch,
a detection pass over `dbC6` (two equal-triple rows, present amounts)
generates the pair 1→2 and its flag, but no pair 2→1 and no flag on
transaction 2 — symmetry fails when only one side of the pair is in the
batch. -/
theorem C6_counterexample :
    ((1, 2) ∈ (check_duplicates_bulk dbC6 [1]).2) ∧
    ((2, 1) ∉ (check_duplicates_bulk dbC6 [1]).2) ∧
    (∃ f ∈ (check_duplicates_bulk dbC6 [1]).1.flags,
      f.transaction_id = 1 ∧ f.duplicates_transaction_id = some 2 ∧
      f.flag_type = "DUPLICATE") ∧
    (∀ f ∈ (check_duplicates_bulk dbC6 [1]).1.flags,
      ¬(f.transaction_id = 2 ∧ f.flag_type = "DUPLICATE")) ∧
    tripleEq ⟨1, "X", "", some 5, some dtA⟩ ⟨2, "X", "", some 5, some dtA⟩ = true := by
  refine ⟨by decide, by decide, ?_, by decide, by decide⟩
  exact ⟨⟨1, 1, some 2, "DUPLICATE", dupMessage 2, true, false⟩, by decide, by decide,
    by decide, by decide⟩

/-- C6 (amended): a duplicate-detection pass is symmetric on the checking
batch — whenever it generates the ordered pair A→B and B is itself in the
(stored part of the) checking batch, it also generates B→A — but a pair
whose second component lies outside the batch is generated one-sided. -/
theorem C6_amended_symmetry_within_batch :
    ∀ db ids pres a b,
      (a, b) ∈ (check_duplicates_bulk db ids pres).2 →
      b ∈ checkingIdsOf db ids →
      (b, a) ∈ (check_duplicates_bulk db ids pres).2 := by
  intro db ids pres a b hmem hb
  rw [check_duplicates_bulk_pairs] at hmem ⊢
  exact duplicatePairsOf_symm db ids a b hmem hb

/-- Witness for C6 (amended): with both rows in the batch, the generated
pair 1→2 forces 2→1. -/
theorem C6_amended_symmetry_witness :
    (2, 1) ∈ (check_duplicates_bulk dbC6 [1, 2]).2 :=
  C6_amended_symmetry_within_batch dbC6 [1, 2] true 1 2 (by decide) (by decide)

/-! ## Transaction-table preservation: flag operations never touch rows -/

theorem get_or_create_flag_transactions (db : DB) (tid : Nat) (ft msg : String)
    (rv rs : Bool) : (get_or_create_flag db tid ft msg rv rs).1.transactions =
      db.transactions := by
  unfold get_or_create_flag
  cases db.flags.find? (flagKeyMatch tid ft msg) <;> rfl

theorem get_or_create_flag_nextTxnId (db : DB) (tid : Nat) (ft msg : String)
    (rv rs : Bool) : (get_or_create_flag db tid ft msg rv rs).1.nextTxnId =
      db.nextTxnId := by
  unfold get_or_create_flag
  cases db.flags.find? (flagKeyMatch tid ft msg) <;> rfl

theorem bulk_insert_flag_transactions (db : DB) (tid : Nat) (dupId : Option Nat)
    (ft msg : String) (rv rs : Bool) :
    (bulk_insert_flag_ignore_conflict db tid dupId ft msg rv rs).transactions =
      db.transactions := by
  unfold bulk_insert_flag_ignore_conflict
  split <;> rfl

theorem bulk_insert_flag_nextTxnId (db : DB) (tid : Nat) (dupId : Option Nat)
    (ft msg : String) (rv rs : Bool) :
    (bulk_insert_flag_ignore_conflict db tid dupId ft msg rv rs).nextTxnId =
      db.nextTxnId := by
  unfold bulk_insert_flag_ignore_conflict
  split <;> rfl

theorem update_or_create_duplicate_flag_transactions (db : DB) (tid dupId : Nat)
    (msg : String) (r : Bool) :
    (update_or_create_duplicate_flag db tid dupId msg r).transactions =
      db.transactions := by
  unfold update_or_create_duplicate_flag
  split <;> rfl

theorem update_or_create_duplicate_flag_nextTxnId (db : DB) (tid dupId : Nat)
    (msg : String) (r : Bool) :
    (update_or_create_duplicate_flag db tid dupId msg r).nextTxnId = db.nextTxnId := by
  unfold update_or_create_duplicate_flag
  split <;> rfl

theorem foldl_update_or_create_transactions (l : List Transaction) (tid : Nat)
    (db : DB) :
    (l.foldl (fun db d => update_or_create_duplicate_flag db d.id tid (dupMessage tid)
      (existingDupResolved db d.id)) db).transactions = db.transactions := by
  induction l generalizing db with
  | nil => rfl
  | cons d rest ih =>
    simp only [List.foldl_cons]
    rw [ih, update_or_create_duplicate_flag_transactions]

theorem create_duplicate_flag_transactions (db : DB) (t : Transaction) (created : Bool) :
    (create_duplicate_flag db t created).transactions = db.transactions := by
  unfold create_duplicate_flag
  split
  · rfl
  · split
    · split <;> rfl
    · rw [foldl_update_or_create_transactions, update_or_create_duplicate_flag_transactions]

theorem foldl_update_or_create_nextTxnId (l : List Transaction) (tid : Nat) (db : DB) :
    (l.foldl (fun db d => update_or_create_duplicate_flag db d.id tid (dupMessage tid)
      (existingDupResolved db d.id)) db).nextTxnId = db.nextTxnId := by
  induction l generalizing db with
  | nil => rfl
  | cons d rest ih =>
    simp only [List.foldl_cons]
    rw [ih, update_or_create_duplicate_flag_nextTxnId]

theorem create_duplicate_flag_nextTxnId (db : DB) (t : Transaction) (created : Bool) :
    (create_duplicate_flag db t created).nextTxnId = db.nextTxnId := by
  unfold create_duplicate_flag
  split
  · rfl
  · split
    · split <;> rfl
    · rw [foldl_update_or_create_nextTxnId, update_or_create_duplicate_flag_nextTxnId]

theorem pre_save_transactions (db : DB) (tid : Nat) (isExisting : Bool) :
    (pre_save_check_duplicates db tid isExisting).transactions = db.transactions := by
  unfold pre_save_check_duplicates
  split <;> rfl

theorem pre_save_nextTxnId (db : DB) (tid : Nat) (isExisting : Bool) :
    (pre_save_check_duplicates db tid isExisting).nextTxnId = db.nextTxnId := by
  unfold pre_save_check_duplicates
  split <;> rfl

theorem save_existing_transaction_transactions (db : DB) (t : Transaction) :
    (save_existing_transaction db t).transactions =
      db.transactions.map (fun u => if u.id == t.id then t else u) := by
  unfold save_existing_transaction
  rw [create_duplicate_flag_transactions, pre_save_transactions]

theorem save_existing_transaction_nextTxnId (db : DB) (t : Transaction) :
    (save_existing_transaction db t).nextTxnId = db.nextTxnId := by
  unfold save_existing_transaction
  rw [create_duplicate_flag_nextTxnId, pre_save_nextTxnId]

theorem create_transaction_flags_transactions (db : DB) (tid : Nat) (fs : List FlagSpec) :
    (create_transaction_flags db tid fs).1.transactions = db.transactions := by
  unfold create_transaction_flags
  suffices h : ∀ acc : DB × List FlagSpec,
      (fs.foldl (createFlagStep tid) acc).1.transactions = acc.1.transactions by
    exact h (db, [])
  induction fs with
  | nil => intro acc; rfl
  | cons fd rest ih =>
    intro acc
    simp only [List.foldl_cons]
    rw [ih]
    unfold createFlagStep
    exact get_or_create_flag_transactions _ _ _ _ _ _

theorem create_transaction_flags_nextTxnId (db : DB) (tid : Nat) (fs : List FlagSpec) :
    (create_transaction_flags db tid fs).1.nextTxnId = db.nextTxnId := by
  unfold create_transaction_flags
  suffices h : ∀ acc : DB × List FlagSpec,
      (fs.foldl (createFlagStep tid) acc).1.nextTxnId = acc.1.nextTxnId by
    exact h (db, [])
  induction fs with
  | nil => intro acc; rfl
  | cons fd rest ih =>
    intro acc
    simp only [List.foldl_cons]
    rw [ih]
    unfold createFlagStep
    exact get_or_create_flag_nextTxnId _ _ _ _ _ _

theorem foldl_bulk_insert_transactions (l : List (Nat × Nat × String × Bool)) (db : DB) :
    (l.foldl (fun db fc => bulk_insert_flag_ignore_conflict db fc.1 (some fc.2.1)
      "DUPLICATE" fc.2.2.1 true fc.2.2.2) db).transactions = db.transactions := by
  induction l generalizing db with
  | nil => rfl
  | cons fc rest ih =>
    simp only [List.foldl_cons]
    rw [ih, bulk_insert_flag_transactions]

theorem foldl_bulk_insert_nextTxnId (l : List (Nat × Nat × String × Bool)) (db : DB) :
    (l.foldl (fun db fc => bulk_insert_flag_ignore_conflict db fc.1 (some fc.2.1)
      "DUPLICATE" fc.2.2.1 true fc.2.2.2) db).nextTxnId = db.nextTxnId := by
  induction l generalizing db with
  | nil => rfl
  | cons fc rest ih =>
    simp only [List.foldl_cons]
    rw [ih, bulk_insert_flag_nextTxnId]

theorem check_duplicates_bulk_transactions (db : DB) (ids : List Nat) (pres : Bool) :
    (check_duplicates_bulk db ids pres).1.transactions = db.transactions := by
  simp only [check_duplicates_bulk]
  split_ifs <;> first
    | rfl
    | (rw [foldl_bulk_insert_transactions])

theorem check_duplicates_bulk_nextTxnId (db : DB) (ids : List Nat) (pres : Bool) :
    (check_duplicates_bulk db ids pres).1.nextTxnId = db.nextTxnId := by
  simp only [check_duplicates_bulk]
  split_ifs <;> first
    | rfl
    | (rw [foldl_bulk_insert_nextTxnId])

theorem clear_transaction_flags_bulk_transactions (db : DB) (ids : List Nat)
    (fts : List String) (ou : Bool) :
    (clear_transaction_flags_bulk db ids fts ou).transactions = db.transactions := rfl

theorem process_custom_flag_transactions (db : DB) (cf : Option CustomFlagPayload)
    (tid : Nat) : (process_custom_flag db cf tid).transactions = db.transactions := by
  unfold process_custom_flag
  cases cf with
  | none => rfl
  | some c =>
    simp only
    split
    · rfl
    · split
      · exact get_or_create_flag_transactions _ _ _ _ _ _
      · rfl

/-! ## The rule engine only ever writes empty categories -/

/-- Row-wise relation between a transaction table and its state after some
rule work: same length, identity, description, amount and datetime
pointwise unchanged, and categories unchanged wherever they were
non-empty. -/
def txnsStep (l l' : List Transaction) : Prop :=
  l'.length = l.length ∧
  ∀ i (h : i < l.length) (h' : i < l'.length),
    (l'.get ⟨i, h'⟩).id = (l.get ⟨i, h⟩).id ∧
    (l'.get ⟨i, h'⟩).description = (l.get ⟨i, h⟩).description ∧
    (l'.get ⟨i, h'⟩).amount = (l.get ⟨i, h⟩).amount ∧
    (l'.get ⟨i, h'⟩).datetime = (l.get ⟨i, h⟩).datetime ∧
    ((l.get ⟨i, h⟩).category ≠ "" → (l'.get ⟨i, h'⟩).category = (l.get ⟨i, h⟩).category)

theorem txnsStep_refl (l : List Transaction) : txnsStep l l :=
  ⟨rfl, fun _ _ _ => ⟨rfl, rfl, rfl, rfl, fun _ => rfl⟩⟩

theorem txnsStep_trans {a b c : List Transaction} (h1 : txnsStep a b) (h2 : txnsStep b c) :
    txnsStep a c := by
  obtain ⟨hl1, hp1⟩ := h1
  obtain ⟨hl2, hp2⟩ := h2
  refine ⟨hl2.trans hl1, fun i h h' => ?_⟩
  have hb : i < b.length := hl1 ▸ h
  obtain ⟨e1, e2, e3, e4, e5⟩ := hp1 i h hb
  obtain ⟨f1, f2, f3, f4, f5⟩ := hp2 i hb h'
  refine ⟨f1.trans e1, f2.trans e2, f3.trans e3, f4.trans e4, fun hne => ?_⟩
  exact (f5 (fun hz => hne (by rw [← e5 hne, hz]))).trans (e5 hne)

theorem txnsStep_map_id {l l' : List Transaction} (h : txnsStep l l') :
    l'.map Transaction.id = l.map Transaction.id := by
  obtain ⟨hl, hp⟩ := h
  apply List.ext_get (by simp [hl])
  intro i h1 h2
  simp only [List.get_eq_getElem, List.getElem_map]
  have := (hp i (by simpa using h2) (by simpa using h1)).1
  simpa [List.get_eq_getElem] using this

theorem txnsStep_nodup {l l' : List Transaction} (h : txnsStep l l')
    (hN : (l.map Transaction.id).Nodup) : (l'.map Transaction.id).Nodup := by
  rw [txnsStep_map_id h]; exact hN

theorem save_existing_txnsStep (db : DB) (t0 : Transaction) (c : String)
    (hN : (db.transactions.map Transaction.id).Nodup)
    (hmem : t0 ∈ db.transactions) (hcat : t0.category = "") :
    txnsStep db.transactions
      (save_existing_transaction db { t0 with category := c }).transactions := by
  rw [save_existing_transaction_transactions]
  refine ⟨by simp, fun i h h' => ?_⟩
  simp only [List.get_eq_getElem, List.getElem_map]
  by_cases hb : db.transactions[i].id == ({ t0 with category := c } : Transaction).id
  · have huid : db.transactions[i].id = t0.id := by simpa using hb
    have hu : db.transactions[i] = t0 :=
      List.inj_on_of_nodup_map hN (List.getElem_mem h) hmem huid
    rw [if_pos hb, hu]
    exact ⟨rfl, rfl, rfl, rfl, fun hne => absurd hcat hne⟩
  · rw [if_neg hb]
    exact ⟨rfl, rfl, rfl, rfl, fun _ => rfl⟩

theorem applyRuleCategoryStage_txnsStep (rule : TransactionRule) (db : DB)
    (t : Transaction) (hN : (db.transactions.map Transaction.id).Nodup)
    (hmem : t ∈ db.transactions) :
    txnsStep db.transactions (applyRuleCategoryStage rule db t).1.transactions := by
  unfold applyRuleCategoryStage
  cases rule.category with
  | none => exact txnsStep_refl _
  | some c =>
    dsimp only
    by_cases hc : c ≠ "" ∧ t.category = ""
    · rw [if_pos hc]
      exact save_existing_txnsStep db t c hN hmem hc.2
    · rw [if_neg hc]
      exact txnsStep_refl _

theorem applyRuleFlagStage_transactions (rule : TransactionRule) (db : DB) (tid : Nat) :
    (applyRuleFlagStage rule db tid).1.transactions = db.transactions := by
  unfold applyRuleFlagStage
  cases rule.flag_message with
  | none => rfl
  | some m =>
    dsimp only
    by_cases hm : m ≠ ""
    · rw [if_pos hm]
      exact get_or_create_flag_transactions _ _ _ _ _ _
    · rw [if_neg hm]

theorem applyRuleToTxn_txnsStep (rule : TransactionRule) (acc : DB × Nat × Nat) (tid : Nat)
    (hN : (acc.1.transactions.map Transaction.id).Nodup) :
    txnsStep acc.1.transactions (applyRuleToTxn rule acc tid).1.transactions := by
  unfold applyRuleToTxn
  cases hfind : txnById acc.1 tid with
  | none => exact txnsStep_refl _
  | some t =>
    simp only
    rw [applyRuleFlagStage_transactions]
    exact applyRuleCategoryStage_txnsStep rule acc.1 t hN
      (List.mem_of_find?_eq_some hfind)

theorem foldl_applyRuleToTxn_txnsStep (rule : TransactionRule) (ids : List Nat) :
    ∀ acc : DB × Nat × Nat, (acc.1.transactions.map Transaction.id).Nodup →
      txnsStep acc.1.transactions (ids.foldl (applyRuleToTxn rule) acc).1.transactions := by
  induction ids with
  | nil => intro acc _; exact txnsStep_refl _
  | cons i rest ih =>
    intro acc hN
    simp only [List.foldl_cons]
    have h1 := applyRuleToTxn_txnsStep rule acc i hN
    exact txnsStep_trans h1 (ih _ (txnsStep_nodup h1 hN))

theorem apply_transaction_rule_txnsStep (db : DB) (rule : TransactionRule)
    (txsel : Option (List Nat)) (db' : DB) (res : RuleResult)
    (hN : (db.transactions.map Transaction.id).Nodup)
    (hok : apply_transaction_rule db rule txsel = .ok (db', res)) :
    txnsStep db.transactions db'.transactions := by
  unfold apply_transaction_rule at hok
  cases hres : resolve_filter rule.filter_condition with
  | error e =>
    rw [hres] at hok
    simp [Bind.bind, Except.bind] at hok
  | ok rcs =>
    rw [hres] at hok
    simp only [Bind.bind, Except.bind, Except.ok.injEq, Prod.mk.injEq] at hok
    rw [← hok.1]
    exact foldl_applyRuleToTxn_txnsStep rule _ (db, 0, 0) hN

theorem apply_transaction_rules_txnsStep :
    ∀ (rules : List TransactionRule) (db : DB) (txsel : Option (List Nat)) (db' : DB),
      (db.transactions.map Transaction.id).Nodup →
      apply_transaction_rules db rules txsel = .ok db' →
      txnsStep db.transactions db'.transactions := by
  intro rules
  induction rules with
  | nil =>
    intro db txsel db' _ h
    unfold apply_transaction_rules at h
    cases h
    exact txnsStep_refl _
  | cons r rest ih =>
    intro db txsel db' hN h
    unfold apply_transaction_rules at h
    cases happ : apply_transaction_rule db r txsel with
    | error e =>
      rw [happ] at h
      simp [Bind.bind, Except.bind] at h
    | ok pr =>
      obtain ⟨db1, res1⟩ := pr
      rw [happ] at h
      simp only [Bind.bind, Except.bind] at h
      have h1 := apply_transaction_rule_txnsStep db r txsel db1 res1 hN happ
      exact txnsStep_trans h1 (ih db1 txsel db' (txnsStep_nodup h1 hN) h)

/-! ## C4 — rule category precedence -/

theorem txnsStep_category_preserved {l l' : List Transaction} (hs : txnsStep l l')
    (hN : (l.map Transaction.id).Nodup) :
    ∀ t ∈ l, t.category ≠ "" → ∀ t' ∈ l', t'.id = t.id → t'.category = t.category := by
  intro t ht hcat t' ht' hid
  obtain ⟨⟨i, hi⟩, hgi⟩ := List.mem_iff_get.1 ht
  obtain ⟨⟨j, hj⟩, hgj⟩ := List.mem_iff_get.1 ht'
  simp only [List.get_eq_getElem] at hgi hgj
  obtain ⟨hl, hp⟩ := hs
  have hj' : j < l.length := hl ▸ hj
  have hpj := hp j hj' hj
  simp only [List.get_eq_getElem] at hpj
  have hids : l[j].id = l[i].id := by
    rw [← hpj.1, hgj, hid, ← hgi]
  have hij : i = j := by
    have h1 : (l.map Transaction.id).get ⟨i, by simpa using hi⟩ =
        (l.map Transaction.id).get ⟨j, by simpa using hj'⟩ := by
      simp only [List.get_eq_getElem, List.getElem_map]
      exact hids.symm
    exact congrArg Fin.val ((List.Nodup.get_inj_iff hN).1 h1)
  subst hij
  have himp := hpj.2.2.2.2
  rw [hgi] at himp
  rw [← hgj]
  exact himp hcat

/-- C4: if a stored transaction's category is non-empty, applying any one
rule — and hence any sequence of rules — never changes it (the category
action fires only on empty categories, so the first writer wins). -/
theorem C4_rule_category_precedence :
    (∀ db rule txsel db' res,
      (db.transactions.map Transaction.id).Nodup →
      apply_transaction_rule db rule txsel = .ok (db', res) →
      ∀ t ∈ db.transactions, t.category ≠ "" →
        ∀ t' ∈ db'.transactions, t'.id = t.id → t'.category = t.category) ∧
    (∀ db rules txsel db',
      (db.transactions.map Transaction.id).Nodup →
      apply_transaction_rules db rules txsel = .ok db' →
      ∀ t ∈ db.transactions, t.category ≠ "" →
        ∀ t' ∈ db'.transactions, t'.id = t.id → t'.category = t.category) := by
  constructor
  · intro db rule txsel db' res hN hok
    exact txnsStep_category_preserved
      (apply_transaction_rule_txnsStep db rule txsel db' res hN hok) hN
  · intro db rules txsel db' hN hok
    exact txnsStep_category_preserved
      (apply_transaction_rules_txnsStep rules db txsel db' hN hok) hN

/-- The store and rule of the C4 witness: a matching rule carrying a
category meets a row whose category is already set. -/
def dbC4 : DB :=
  { transactions := [⟨1, "Coffee shop", "Keep", some 5, some dtA⟩],
    flags := [], nextTxnId := 2, nextFlagId := 1 }

/-- A rule matching `dbC4`'s row (case-insensitive substring) that would
set a category and add a flag. -/
def ruleC4 : TransactionRule :=
  { id := 7, filter_condition := [("description__icontains", .str "coffee")],
    category := some "Dining", flag_message := some "Contains coffee" }

/-- The store after applying `ruleC4` to `dbC4`. -/
def dbC4' : DB :=
  { transactions := [⟨1, "Coffee shop", "Keep", some 5, some dtA⟩],
    flags := [⟨1, 1, none, "RULE_MATCH", "Contains coffee", true, false⟩],
    nextTxnId := 2, nextFlagId := 2 }

/-- Witness for C4: the matching rule against the already-categorized row
leaves the category at `"Keep"`. -/
theorem C4_rule_category_precedence_witness :
    (⟨1, "Coffee shop", "Keep", some 5, some dtA⟩ : Transaction).category = "Keep" := by
  have h := C4_rule_category_precedence.1 dbC4 ruleC4 none dbC4'
    ⟨7, 0, 1, 1⟩ (by decide) (by decide)
    ⟨1, "Coffee shop", "Keep", some 5, some dtA⟩ (by decide) (by decide)
    ⟨1, "Coffee shop", "Keep", some 5, some dtA⟩ (by decide) rfl
  exact h

/-! ## C10 — datetime population -/

theorem save_new_transaction_spec (db : DB) (c : CleanedData) :
    (save_new_transaction db c).2 = db.nextTxnId ∧
    (save_new_transaction db c).1.transactions =
      db.transactions ++
        [⟨db.nextTxnId, c.description, c.category, c.amount, c.datetime⟩] ∧
    (save_new_transaction db c).1.nextTxnId = db.nextTxnId + 1 := by
  unfold save_new_transaction
  refine ⟨rfl, ?_, ?_⟩
  · rw [create_duplicate_flag_transactions]
    simp [pre_save_check_duplicates]
  · rw [create_duplicate_flag_nextTxnId]

/-- A blank or absent raw datetime cleans to the current time. -/
theorem clean_blank_datetime (env : Env) (data : RawRecord)
    (h : data.datetime = none ∨ data.datetime = some .null ∨
      ∃ s, data.datetime = some (.str s) ∧ pyStrip s = "") :
    (clean_transaction_data env data).datetime = some env.now := by
  unfold clean_transaction_data
  rcases h with h | h | ⟨s, h, hs⟩
  · rw [h]; simp [parse_datetime]
  · rw [h]; simp [parse_datetime]
  · rw [h]; simp [parse_datetime, hs]

/-- The raw record of the C10 counterexample: a present but unparseable
datetime. -/
def badDtRecord : RawRecord :=
  { description := some "X", amount := some (.str "5"), datetime := some (.str "??!!") }

/-- Counterexample to C10: creating from a record whose non-blank datetime
matches no format (and whose `dateutil` fallback fails) persists a
transaction whose stored datetime is absent — it does not default to the
ingestion time. -/
theorem C10_counterexample :
    ∃ db' tid, create_transaction_with_flags sampleEnv [] {} badDtRecord = .ok (db', tid) ∧
      (∃ t' ∈ db'.transactions, t'.id = tid) ∧
      (∀ t' ∈ db'.transactions, t'.datetime = none) := by
  exact ⟨_, _, rfl, by decide, by decide⟩

/-- For every create input whose raw datetime is absent, `None` or blank,
the stored transaction's datetime is the ingestion time. -/
theorem create_blank_datetime_stores_now :
    ∀ env rules db data db' tid,
      DB.WF db →
      (data.datetime = none ∨ data.datetime = some .null ∨
        ∃ s, data.datetime = some (.str s) ∧ pyStrip s = "") →
      create_transaction_with_flags env rules db data = .ok (db', tid) →
      (∃ t' ∈ db'.transactions, t'.id = tid ∧ t'.datetime = some env.now) ∧
      (∀ t' ∈ db'.transactions, t'.id = tid → t'.datetime = some env.now) := by
  intro env rules db data db' tid hWF hblank hok
  obtain ⟨hN, hbound⟩ := hWF
  have hcd : (clean_transaction_data env data).datetime = some env.now :=
    clean_blank_datetime env data hblank
  unfold create_transaction_with_flags at hok
  by_cases hrej : (clean_transaction_data env data).amount = none ∧
      (clean_transaction_data env data).description = "" ∧
      (clean_transaction_data env data).category = ""
  · rw [if_pos hrej] at hok
    simp at hok
  · rw [if_neg hrej] at hok
    obtain ⟨hs2, hs1, hs3⟩ := save_new_transaction_spec db (clean_transaction_data env data)
    rcases hsave : save_new_transaction db (clean_transaction_data env data) with ⟨db1, tid0⟩
    rw [hsave] at hok hs2 hs1 hs3
    simp only at hok hs1 hs2 hs3
    cases happ : apply_transaction_rules db1 rules (some [tid0]) with
    | error e =>
      rw [happ] at hok
      simp [Bind.bind, Except.bind] at hok
    | ok db2 =>
      rw [happ] at hok
      simp only [Bind.bind, Except.bind, Except.ok.injEq, Prod.mk.injEq] at hok
      obtain ⟨hdb', htid⟩ := hok
      have htx : db'.transactions = db2.transactions := by
        rw [← hdb', check_duplicates_bulk_transactions, create_transaction_flags_transactions]
      have hN1 : (db1.transactions.map Transaction.id).Nodup := by
        rw [hs1]
        rw [List.map_append, List.nodup_append]
        refine ⟨hN, List.nodup_singleton _, ?_⟩
        intro x hx
        obtain ⟨t, hmem, hxid⟩ := List.mem_map.1 hx
        simp only [List.map_cons, List.map_nil, List.mem_singleton]
        intro hxe
        have := hbound t hmem
        omega
      have hstep := apply_transaction_rules_txnsStep rules db1 (some [tid0]) db2 hN1 happ
      obtain ⟨hl, hp⟩ := hstep
      have hlen1 : db1.transactions.length = db.transactions.length + 1 := by
        rw [hs1]; simp
      have hn1 : db.transactions.length < db1.transactions.length := by omega
      have hn2 : db.transactions.length < db2.transactions.length := by omega
      have hnew : db1.transactions.get ⟨db.transactions.length, hn1⟩ =
          ⟨db.nextTxnId, (clean_transaction_data env data).description,
           (clean_transaction_data env data).category,
           (clean_transaction_data env data).amount,
           (clean_transaction_data env data).datetime⟩ := by
        rw [List.get_of_eq hs1]
        simp only [List.get_eq_getElem, Fin.coe_cast]
        exact List.getElem_concat_length _ _ _ rfl _
      have hpn := hp db.transactions.length hn1 hn2
      constructor
      · refine ⟨db2.transactions.get ⟨db.transactions.length, hn2⟩, ?_, ?_, ?_⟩
        · rw [htx]; exact List.get_mem _ _ _
        · rw [hpn.1, hnew, ← htid, hs2]
        · rw [hpn.2.2.2.1, hnew, hcd]
      · intro t' ht' hid
        rw [htx] at ht'
        obtain ⟨⟨j, hj⟩, hgj⟩ := List.mem_iff_get.1 ht'
        have hj1 : j < db1.transactions.length := by omega
        have hpj := hp j hj1 hj
        by_cases hjn : j < db.transactions.length
        · exfalso
          have hold : db1.transactions.get ⟨j, hj1⟩ = db.transactions.get ⟨j, hjn⟩ := by
            rw [List.get_of_eq hs1]
            simp only [List.get_eq_getElem, Fin.coe_cast]
            exact List.getElem_append_left _
          have hmem : db.transactions.get ⟨j, hjn⟩ ∈ db.transactions := List.get_mem _ _ _
          have hlt := hbound _ hmem
          have : t'.id = db.nextTxnId := by rw [hid, ← htid, hs2]
          rw [← hgj] at this
          rw [hpj.1, hold] at this
          omega
        · have hjeq : j = db.transactions.length := by omega
          subst hjeq
          rw [← hgj, hpj.2.2.2.1, hnew, hcd]

/-- After saving an existing row and running the rule pass, the saved
row's datetime is in place: every surviving row carrying the saved id has
the saved datetime, and each previously stored row with that id yields
such a survivor. -/
theorem save_then_rules_datetime (db0 db4 : DB) (rules : List TransactionRule)
    (txsel : Option (List Nat)) (tN : Transaction)
    (hN : (db0.transactions.map Transaction.id).Nodup)
    (heq : apply_transaction_rules (save_existing_transaction db0 tN) rules txsel =
      .ok db4) :
    (∀ t' ∈ db4.transactions, t'.id = tN.id → t'.datetime = tN.datetime) ∧
    (∀ u ∈ db0.transactions, u.id = tN.id →
      ∃ t' ∈ db4.transactions, t'.id = tN.id ∧ t'.datetime = tN.datetime) := by
  have hsT := save_existing_transaction_transactions db0 tN
  have hNs : ((save_existing_transaction db0 tN).transactions.map Transaction.id).Nodup := by
    rw [hsT, List.map_map]
    have hmm : db0.transactions.map
        (Transaction.id ∘ fun u => if u.id == tN.id then tN else u) =
        db0.transactions.map Transaction.id := by
      apply List.map_congr_left
      intro u _
      simp only [Function.comp_apply]
      split
      · rename_i h
        simp only [beq_iff_eq] at h
        exact h.symm
      · rfl
    rw [hmm]
    exact hN
  have hstep := apply_transaction_rules_txnsStep rules _ txsel db4 hNs heq
  obtain ⟨hl, hp⟩ := hstep
  rw [hsT] at hl hp
  constructor
  · intro t' ht' hid
    obtain ⟨⟨j, hj⟩, hgj⟩ := List.mem_iff_get.1 ht'
    have hj0 : j < db0.transactions.length := by
      have := hl ▸ hj
      simpa using this
    have hj1 : j < (db0.transactions.map
        (fun u => if u.id == tN.id then tN else u)).length := by simpa using hj0
    have hpj := hp j hj1 hj
    simp only [List.get_eq_getElem, List.getElem_map] at hpj
    rw [← hgj] at hid
    simp only [List.get_eq_getElem] at hgj hid
    by_cases hcase : (db0.transactions.get ⟨j, hj0⟩).id = tN.id
    · rw [← hgj]
      rw [hpj.2.2.2.1, if_pos (by simpa using hcase)]
    · exfalso
      apply hcase
      have h1 := hpj.1
      rw [if_neg (by simpa using hcase)] at h1
      rw [h1] at hid
      exact hid
  · intro u hu huid
    obtain ⟨⟨i, hi⟩, hgi⟩ := List.mem_iff_get.1 hu
    have hi1 : i < (db0.transactions.map
        (fun u => if u.id == tN.id then tN else u)).length := by simpa using hi
    have hi4 : i < db4.transactions.length := by
      rw [hl]
      simpa using hi
    have hpi := hp i hi1 hi4
    simp only [List.get_eq_getElem, List.getElem_map] at hpi
    simp only [List.get_eq_getElem] at hgi
    rw [hgi] at hpi
    rw [if_pos (by simpa using huid)] at hpi
    refine ⟨db4.transactions.get ⟨i, hi4⟩, List.get_mem _ _ _, ?_, ?_⟩
    · simpa using hpi.1
    · simpa using hpi.2.2.2.1

/-- For every update of a stored transaction whose payload carries an
explicitly `None` or blank datetime value, the stored datetime afterwards
is the ingestion time. -/
theorem update_blank_datetime_stores_now (env : Env) (rules : List TransactionRule)
    (db : DB) (t : Transaction) (data : RawRecord) (db' : DB)
    (hWF : DB.WF db) (hmem : t ∈ db.transactions)
    (hblank : data.datetime = some .null ∨
      ∃ s, data.datetime = some (.str s) ∧ pyStrip s = "")
    (hok : update_transaction_with_flags env rules db t data = .ok db') :
    (∃ t' ∈ db'.transactions, t'.id = t.id ∧ t'.datetime = some env.now) ∧
    (∀ t' ∈ db'.transactions, t'.id = t.id → t'.datetime = some env.now) := by
  unfold update_transaction_with_flags at hok
  rcases hmer : merge_transaction_update t data with ⟨merged, custom⟩
  rw [hmer] at hok
  simp only [Bind.bind, Except.bind] at hok
  have hmdt : merged.datetime = some .null ∨
      ∃ s, merged.datetime = some (.str s) ∧ pyStrip s = "" := by
    simp only [merge_transaction_update, Prod.mk.injEq] at hmer
    rcases hblank with h | ⟨s, h, hs⟩
    · left
      rw [← hmer.1]
      simp [h]
    · right
      refine ⟨s, ?_, hs⟩
      rw [← hmer.1]
      simp [h]
  have hcd : (clean_transaction_data env merged).datetime = some env.now :=
    clean_blank_datetime env merged (Or.inr hmdt)
  split at hok
  · exact absurd hok (by simp)
  · rename_i db4 heq
    simp only [Except.ok.injEq] at hok
    subst hok
    rw [process_custom_flag_transactions, check_duplicates_bulk_transactions,
        create_transaction_flags_transactions]
    have hres := save_then_rules_datetime _ db4 rules (some [t.id]) _ (by exact hWF.1) heq
    constructor
    · obtain ⟨t', ht', hid, hdt⟩ := hres.2 t hmem rfl
      exact ⟨t', ht', hid, hdt.trans hcd⟩
    · intro t' ht' hid
      exact (hres.1 t' ht' hid).trans hcd

/-- C10 (amended): a create input whose raw datetime is absent, `None` or
blank stores the ingestion time, and so does an update whose payload
carries an explicitly `None` or blank datetime value (an update payload
omitting the datetime key merges the stored value forward instead); a
non-blank unparseable datetime is stored as absent (counterexample
above). -/
theorem C10_amended_blank_datetime_defaults :
    (∀ env rules db data db' tid,
      DB.WF db →
      (data.datetime = none ∨ data.datetime = some .null ∨
        ∃ s, data.datetime = some (.str s) ∧ pyStrip s = "") →
      create_transaction_with_flags env rules db data = .ok (db', tid) →
      (∃ t' ∈ db'.transactions, t'.id = tid ∧ t'.datetime = some env.now) ∧
      (∀ t' ∈ db'.transactions, t'.id = tid → t'.datetime = some env.now)) ∧
    (∀ env rules db t data db',
      DB.WF db → t ∈ db.transactions →
      (data.datetime = some .null ∨
        ∃ s, data.datetime = some (.str s) ∧ pyStrip s = "") →
      update_transaction_with_flags env rules db t data = .ok db' →
      (∃ t' ∈ db'.transactions, t'.id = t.id ∧ t'.datetime = some env.now) ∧
      (∀ t' ∈ db'.transactions, t'.id = t.id → t'.datetime = some env.now)) :=
  ⟨create_blank_datetime_stores_now,
   fun env rules db t data db' => update_blank_datetime_stores_now env rules db t data db'⟩

/-- The store produced by creating `blankDtRecord` on the empty store. -/
def dbBlankResult : DB :=
  { transactions := [⟨1, "X", "", some 10, some sampleEnv.now⟩],
    flags := [⟨1, 1, none, "MISSING_DATA", "Missing category", false, false⟩],
    nextTxnId := 2, nextFlagId := 2 }

/-- The one-row store of the C10 update witness. -/
def dbC10 : DB :=
  { transactions := [⟨1, "Coffee", "Drinks", some 5, some dtA⟩],
    flags := [], nextTxnId := 2, nextFlagId := 1 }

/-- The stored row of `dbC10`. -/
def txnC10 : Transaction := ⟨1, "Coffee", "Drinks", some 5, some dtA⟩

/-- An update payload identical to `txnC10`'s data except for an explicit
`None` datetime. -/
def updBlankRecord : RawRecord :=
  { description := some "Coffee", category := some "Drinks", amount := some (.num 5),
    datetime := some .null }

/-- The store produced by updating `txnC10` with `updBlankRecord`. -/
def dbC10upd : DB :=
  { transactions := [⟨1, "Coffee", "Drinks", some 5, some sampleEnv.now⟩],
    flags := [], nextTxnId := 2, nextFlagId := 1 }

/-- Witness for C10 (amended): a concrete create with a blank datetime and
a concrete update with an explicit `None` datetime both store the sample
environment's current time. -/
theorem C10_amended_witness :
    (∃ t' ∈ dbBlankResult.transactions, t'.id = 1 ∧ t'.datetime = some sampleEnv.now) ∧
    (∃ t' ∈ dbC10upd.transactions, t'.id = 1 ∧ t'.datetime = some sampleEnv.now) :=
  ⟨(C10_amended_blank_datetime_defaults.1 sampleEnv [] {} blankDtRecord dbBlankResult 1
     ⟨List.nodup_nil, by simp⟩ (Or.inr (Or.inr ⟨"", rfl, rfl⟩)) (by decide)).1,
   (C10_amended_blank_datetime_defaults.2 sampleEnv [] dbC10 txnC10 updBlankRecord dbC10upd
     (by decide) (by decide) (Or.inl rfl) (by decide)).1⟩

/-! ## C2 — what survives an update

`protectedFlag` captures the flags the spec says survive untouched; the
relation `FlagsPreserved` additionally tracks that every resolved flag
(DUPLICATE included) keeps its identity, owner, type and resolution.
`GoodStep` is the per-operation preservation statement, under the flag
table's primary-key well-formedness. -/

/-- A flag the update flow never deletes or rewrites: a resolved flag of a
non-DUPLICATE type, or a CUSTOM flag (resolved or not). -/
def protectedFlag (f : TransactionFlag) : Prop :=
  (f.is_resolved = true ∧ f.flag_type ≠ "DUPLICATE") ∨ f.flag_type = "CUSTOM"

/-- Protected flags survive verbatim; every resolved flag survives with
its identity, owner, type and resolution (its message or duplicate
reference may be rewritten by the save hook when it is a DUPLICATE flag). -/
def FlagsPreserved (db db' : DB) : Prop :=
  (∀ f ∈ db.flags, protectedFlag f → f ∈ db'.flags) ∧
  (∀ f ∈ db.flags, f.is_resolved = true →
    ∃ f' ∈ db'.flags, f'.id = f.id ∧ f'.transaction_id = f.transaction_id ∧
      f'.flag_type = f.flag_type ∧ f'.is_resolved = true)

/-- Flag rows are consistent: unique primary keys below the id counter. -/
def FlagsWF (db : DB) : Prop :=
  (db.flags.map TransactionFlag.id).Nodup ∧ ∀ f ∈ db.flags, f.id < db.nextFlagId

instance (db : DB) : Decidable (FlagsWF db) := by
  unfold FlagsWF; infer_instance

/-- One store operation preserves protected flags and flag-table
well-formedness. -/
def GoodStep (db db' : DB) : Prop :=
  FlagsWF db → FlagsPreserved db db' ∧ FlagsWF db'

theorem flagsPreserved_refl (db : DB) : FlagsPreserved db db :=
  ⟨fun f hf _ => hf, fun f hf hr => ⟨f, hf, rfl, rfl, rfl, hr⟩⟩

theorem goodStep_refl (db : DB) : GoodStep db db :=
  fun h => ⟨flagsPreserved_refl db, h⟩

theorem flagsPreserved_trans {a b c : DB} (h1 : FlagsPreserved a b)
    (h2 : FlagsPreserved b c) : FlagsPreserved a c := by
  refine ⟨fun f hf hp => h2.1 f (h1.1 f hf hp) hp, fun f hf hr => ?_⟩
  obtain ⟨f', hf', e1, e2, e3, e4⟩ := h1.2 f hf hr
  obtain ⟨f'', hf'', g1, g2, g3, g4⟩ := h2.2 f' hf' e4
  exact ⟨f'', hf'', g1.trans e1, g2.trans e2, g3.trans e3, g4⟩

theorem goodStep_trans {a b c : DB} (h1 : GoodStep a b) (h2 : GoodStep b c) :
    GoodStep a c := by
  intro hwf
  obtain ⟨p1, w1⟩ := h1 hwf
  obtain ⟨p2, w2⟩ := h2 w1
  exact ⟨flagsPreserved_trans p1 p2, w2⟩

/-- A record update that leaves the flag table and its counter alone. -/
theorem goodStep_flags_eq {db db' : DB} (hf : db'.flags = db.flags)
    (hn : db'.nextFlagId = db.nextFlagId) : GoodStep db db' := by
  intro hwf
  constructor
  · exact ⟨fun f hmem _ => hf ▸ hmem, fun f hmem hr => ⟨f, hf ▸ hmem, rfl, rfl, rfl, hr⟩⟩
  · exact ⟨by rw [hf]; exact hwf.1, fun f hmem => by
      rw [hn]; exact hwf.2 f (hf ▸ hmem)⟩

/-- Deleting flags keeps protection as long as the delete touches neither
resolved nor CUSTOM flags. -/
theorem goodStep_filter (db : DB) (p : TransactionFlag → Bool)
    (hres : ∀ f, f.is_resolved = true → p f = true)
    (hcust : ∀ f, f.flag_type = "CUSTOM" → p f = true) :
    GoodStep db { db with flags := db.flags.filter p } := by
  intro hwf
  refine ⟨⟨fun f hmem hp => ?_, fun f hmem hr => ?_⟩, ?_, ?_⟩
  · rcases hp with ⟨h1, _⟩ | h1
    · exact List.mem_filter.2 ⟨hmem, hres f h1⟩
    · exact List.mem_filter.2 ⟨hmem, hcust f h1⟩
  · exact ⟨f, List.mem_filter.2 ⟨hmem, hres f hr⟩, rfl, rfl, rfl, hr⟩
  · exact hwf.1.sublist ((db.flags.filter_sublist (p := p)).map TransactionFlag.id)
  · intro f hmem
    exact hwf.2 f (List.mem_of_mem_filter hmem)

/-- Appending a fresh flag row. -/
theorem goodStep_append_fresh (db : DB) (tf : TransactionFlag)
    (hid : tf.id = db.nextFlagId) :
    GoodStep db { db with flags := db.flags ++ [tf],
                          nextFlagId := db.nextFlagId + 1 } := by
  intro hwf
  refine ⟨⟨fun f hmem _ => List.mem_append_left _ hmem,
      fun f hmem hr => ⟨f, List.mem_append_left _ hmem, rfl, rfl, rfl, hr⟩⟩, ?_, ?_⟩
  · rw [List.map_append, List.nodup_append]
    refine ⟨hwf.1, by simp, ?_⟩
    intro x hx
    obtain ⟨g, hg, hgx⟩ := List.mem_map.1 hx
    have := hwf.2 g hg
    simp only [List.map_cons, List.map_nil, List.mem_singleton]
    intro hxe
    rw [hxe, hid] at hgx
    omega
  · intro f hmem
    show f.id < db.nextFlagId + 1
    rcases List.mem_append.1 hmem with h | h
    · have := hwf.2 f h
      omega
    · rw [List.mem_singleton.1 h, hid]
      omega

theorem goodStep_get_or_create (db : DB) (tid : Nat) (ft msg : String) (rv rs : Bool) :
    GoodStep db (get_or_create_flag db tid ft msg rv rs).1 := by
  unfold get_or_create_flag
  cases db.flags.find? (flagKeyMatch tid ft msg) with
  | some f => exact goodStep_refl db
  | none =>
    apply goodStep_append_fresh
    rfl

theorem goodStep_bulk_insert (db : DB) (tid : Nat) (dupId : Option Nat)
    (ft msg : String) (rv rs : Bool) :
    GoodStep db (bulk_insert_flag_ignore_conflict db tid dupId ft msg rv rs) := by
  unfold bulk_insert_flag_ignore_conflict
  split
  · exact goodStep_refl db
  · apply goodStep_append_fresh
    rfl

theorem dupRewrite_id (dupId : Nat) (msg : String) (isRes : Bool) (f0id : Nat)
    (f : TransactionFlag) : (dupRewrite dupId msg isRes f0id f).id = f.id := by
  unfold dupRewrite
  split <;> rfl

theorem dupRewrite_of_ne (dupId : Nat) (msg : String) (isRes : Bool) (f0id : Nat)
    (f : TransactionFlag) (h : f.id ≠ f0id) : dupRewrite dupId msg isRes f0id f = f := by
  unfold dupRewrite
  rw [if_neg]
  simpa using h

theorem goodStep_update_or_create (db : DB) (tid dupId : Nat) (msg : String) :
    GoodStep db (update_or_create_duplicate_flag db tid dupId msg
      (existingDupResolved db tid)) := by
  unfold update_or_create_duplicate_flag existingDupResolved
  cases hfind : db.flags.find? (fun f => f.transaction_id == tid &&
      f.flag_type == "DUPLICATE") with
  | none =>
    apply goodStep_append_fresh
    rfl
  | some f0 =>
    intro hwf
    have hf0mem := List.mem_of_find?_eq_some hfind
    have hf0p := List.find?_some hfind
    have hf0type : f0.flag_type = "DUPLICATE" := by
      simp only [Bool.and_eq_true, beq_iff_eq] at hf0p
      exact hf0p.2
    have hinj := List.inj_on_of_nodup_map hwf.1
    have hgf : ∀ f ∈ db.flags, f ≠ f0 →
        dupRewrite dupId msg f0.is_resolved f0.id f = f := by
      intro f hf hne
      apply dupRewrite_of_ne
      intro hide
      exact hne (hinj hf hf0mem hide)
    constructor
    · constructor
      · intro f hmem hp
        have hne : f ≠ f0 := by
          intro he
          rcases hp with ⟨_, h2⟩ | h2 <;> rw [he] at h2 <;> simp [hf0type] at h2
        rw [← hgf f hmem hne]
        exact List.mem_map_of_mem _ hmem
      · intro f hmem hr
        by_cases hne : f = f0
        · subst hne
          refine ⟨dupRewrite dupId msg f.is_resolved f.id f,
            List.mem_map_of_mem _ hmem, dupRewrite_id _ _ _ _ _, ?_, ?_, ?_⟩
          · simp [dupRewrite]
          · simp [dupRewrite]
          · simp [dupRewrite, hr]
        · refine ⟨f, ?_, rfl, rfl, rfl, hr⟩
          rw [← hgf f hmem hne]
          exact List.mem_map_of_mem _ hmem
    · constructor
      · have hmapid : (db.flags.map (dupRewrite dupId msg f0.is_resolved f0.id)).map
            TransactionFlag.id = db.flags.map TransactionFlag.id := by
          rw [List.map_map]
          apply List.map_congr_left
          intro f _
          simp [Function.comp, dupRewrite_id]
        rw [hmapid]
        exact hwf.1
      · intro f hmem
        obtain ⟨g, hg, hgf2⟩ := List.mem_map.1 hmem
        rw [← hgf2, dupRewrite_id]
        exact hwf.2 g hg

theorem goodStep_foldl_update_or_create (l : List Transaction) (tid : Nat) :
    ∀ db : DB, GoodStep db (l.foldl (fun db d =>
      update_or_create_duplicate_flag db d.id tid (dupMessage tid)
        (existingDupResolved db d.id)) db) := by
  induction l with
  | nil => intro db; exact goodStep_refl db
  | cons d rest ih =>
    intro db
    simp only [List.foldl_cons]
    exact goodStep_trans (goodStep_update_or_create db d.id tid (dupMessage tid)) (ih _)

theorem goodStep_pre_save (db : DB) (tid : Nat) (ex : Bool) :
    GoodStep db (pre_save_check_duplicates db tid ex) := by
  unfold pre_save_check_duplicates
  split
  · apply goodStep_filter
    · intro f hr; simp [hr]
    · intro f hc
      have : (f.flag_type == "DUPLICATE") = false := by
        simp [hc]
      simp [this]
  · exact goodStep_refl db

theorem goodStep_create_duplicate_flag (db : DB) (t : Transaction) (created : Bool) :
    GoodStep db (create_duplicate_flag db t created) := by
  unfold create_duplicate_flag
  split
  · exact goodStep_refl db
  · split
    · split
      · apply goodStep_filter
        · intro f hr; simp [hr]
        · intro f hc
          have : (f.flag_type == "DUPLICATE") = false := by simp [hc]
          simp [this]
      · exact goodStep_refl db
    · exact goodStep_trans
        (goodStep_update_or_create db t.id _ (dupMessage _))
        (goodStep_foldl_update_or_create _ t.id _)

theorem goodStep_save_existing (db : DB) (t : Transaction) :
    GoodStep db (save_existing_transaction db t) := by
  unfold save_existing_transaction
  refine goodStep_trans (goodStep_pre_save db t.id true)
    (goodStep_trans (goodStep_flags_eq ?_ ?_) (goodStep_create_duplicate_flag _ t false)) <;>
    rfl

theorem goodStep_save_new (db : DB) (c : CleanedData) :
    GoodStep db (save_new_transaction db c).1 := by
  unfold save_new_transaction
  refine goodStep_trans (goodStep_pre_save db db.nextTxnId false)
    (goodStep_trans (goodStep_flags_eq ?_ ?_) (goodStep_create_duplicate_flag _ _ true)) <;>
    rfl

theorem goodStep_applyRuleToTxn (rule : TransactionRule) (acc : DB × Nat × Nat)
    (tid : Nat) : GoodStep acc.1 (applyRuleToTxn rule acc tid).1 := by
  unfold applyRuleToTxn
  cases txnById acc.1 tid with
  | none => exact goodStep_refl _
  | some t =>
    dsimp only
    refine goodStep_trans (b := (applyRuleCategoryStage rule acc.1 t).1) ?_ ?_
    · unfold applyRuleCategoryStage
      cases rule.category with
      | none => exact goodStep_refl _
      | some c =>
        dsimp only
        split
        · exact goodStep_save_existing _ _
        · exact goodStep_refl _
    · unfold applyRuleFlagStage
      cases rule.flag_message with
      | none => exact goodStep_refl _
      | some m =>
        dsimp only
        split
        · exact goodStep_get_or_create _ _ _ _ _ _
        · exact goodStep_refl _

theorem goodStep_foldl_applyRuleToTxn (rule : TransactionRule) (ids : List Nat) :
    ∀ acc : DB × Nat × Nat, GoodStep acc.1 ((ids.foldl (applyRuleToTxn rule) acc)).1 := by
  induction ids with
  | nil => intro acc; exact goodStep_refl _
  | cons i rest ih =>
    intro acc
    simp only [List.foldl_cons]
    exact goodStep_trans (goodStep_applyRuleToTxn rule acc i) (ih _)

theorem goodStep_apply_transaction_rule (db : DB) (rule : TransactionRule)
    (txsel : Option (List Nat)) (db' : DB) (res : RuleResult)
    (hok : apply_transaction_rule db rule txsel = .ok (db', res)) :
    GoodStep db db' := by
  unfold apply_transaction_rule at hok
  cases hres : resolve_filter rule.filter_condition with
  | error e =>
    rw [hres] at hok
    simp [Bind.bind, Except.bind] at hok
  | ok rcs =>
    rw [hres] at hok
    simp only [Bind.bind, Except.bind, Except.ok.injEq, Prod.mk.injEq] at hok
    rw [← hok.1]
    exact goodStep_foldl_applyRuleToTxn rule _ (db, 0, 0)

theorem goodStep_apply_transaction_rules :
    ∀ (rules : List TransactionRule) (db : DB) (txsel : Option (List Nat)) (db' : DB),
      apply_transaction_rules db rules txsel = .ok db' → GoodStep db db' := by
  intro rules
  induction rules with
  | nil =>
    intro db txsel db' h
    unfold apply_transaction_rules at h
    cases h
    exact goodStep_refl _
  | cons r rest ih =>
    intro db txsel db' h
    unfold apply_transaction_rules at h
    cases happ : apply_transaction_rule db r txsel with
    | error e =>
      rw [happ] at h
      simp [Bind.bind, Except.bind] at h
    | ok pr =>
      obtain ⟨db1, res1⟩ := pr
      rw [happ] at h
      simp only [Bind.bind, Except.bind] at h
      exact goodStep_trans (goodStep_apply_transaction_rule db r txsel db1 res1 happ)
        (ih db1 txsel db' h)

theorem goodStep_create_transaction_flags (db : DB) (tid : Nat) (fs : List FlagSpec) :
    GoodStep db (create_transaction_flags db tid fs).1 := by
  unfold create_transaction_flags
  suffices h : ∀ acc : DB × List FlagSpec,
      GoodStep acc.1 (fs.foldl (createFlagStep tid) acc).1 by
    exact h (db, [])
  induction fs with
  | nil => intro acc; exact goodStep_refl _
  | cons fd rest ih =>
    intro acc
    simp only [List.foldl_cons]
    refine goodStep_trans ?_ (ih _)
    unfold createFlagStep
    exact goodStep_get_or_create _ _ _ _ _ _

theorem goodStep_foldl_bulk_insert (l : List (Nat × Nat × String × Bool)) :
    ∀ db : DB, GoodStep db (l.foldl (fun db fc =>
      bulk_insert_flag_ignore_conflict db fc.1 (some fc.2.1) "DUPLICATE" fc.2.2.1 true
        fc.2.2.2) db) := by
  induction l with
  | nil => intro db; exact goodStep_refl _
  | cons fc rest ih =>
    intro db
    simp only [List.foldl_cons]
    exact goodStep_trans (goodStep_bulk_insert db _ _ _ _ _ _) (ih _)

theorem goodStep_check_duplicates_preserve (db : DB) (ids : List Nat) :
    GoodStep db (check_duplicates_bulk db ids).1 := by
  simp only [check_duplicates_bulk]
  split_ifs
  · exact goodStep_refl _
  · exact goodStep_foldl_bulk_insert _ db

theorem goodStep_process_custom_flag (db : DB) (cf : Option CustomFlagPayload)
    (tid : Nat) : GoodStep db (process_custom_flag db cf tid) := by
  unfold process_custom_flag
  cases cf with
  | none => exact goodStep_refl _
  | some c =>
    dsimp only
    split
    · exact goodStep_refl _
    · split
      · exact goodStep_get_or_create _ _ _ _ _ _
      · exact goodStep_refl _

theorem goodStep_clear_update (db : DB) (tid : Nat) :
    GoodStep db (clear_transaction_flags_bulk db [tid]
      ["PARSE_ERROR", "MISSING_DATA", "RULE_MATCH", "DUPLICATE"] true) := by
  unfold clear_transaction_flags_bulk
  apply goodStep_filter
  · intro f hr; simp [hr]
  · intro f hc
    rw [hc]
    simp

/-- The update flow's second delete — unresolved DUPLICATE flags
*referencing* the updated transaction — touches neither resolved nor
CUSTOM flags. -/
theorem goodStep_clear_referencing (db : DB) (tid : Nat) :
    GoodStep db { db with flags := db.flags.filter (fun f =>
      !(f.duplicates_transaction_id == some tid && f.flag_type == "DUPLICATE" &&
        !f.is_resolved)) } := by
  apply goodStep_filter
  · intro f hr; simp [hr]
  · intro f hc
    rw [hc]
    simp

/-- C2 (amended): any update through `update_transaction_with_flags` —
no-op payload or not — preserves verbatim every resolved non-DUPLICATE
flag and every CUSTOM flag, and preserves every resolved flag's identity,
owner, type and resolution, provided the flag table is well-formed. -/
theorem C2_amended_update_preserves_flags (env : Env) (rules : List TransactionRule)
    (db : DB) (t : Transaction) (data : RawRecord) (db' : DB)
    (hwf : FlagsWF db)
    (hok : update_transaction_with_flags env rules db t data = .ok db') :
    FlagsPreserved db db' := by
  unfold update_transaction_with_flags at hok
  rcases hmer : merge_transaction_update t data with ⟨merged, custom⟩
  rw [hmer] at hok
  simp only [Bind.bind, Except.bind] at hok
  split at hok
  · exact absurd hok (by simp)
  · rename_i db4 heq
    simp only [Except.ok.injEq] at hok
    subst hok
    exact ((goodStep_trans (goodStep_trans (goodStep_clear_update db t.id)
      (goodStep_trans (goodStep_clear_referencing _ t.id) (goodStep_save_existing _ _)))
      (goodStep_trans (goodStep_apply_transaction_rules rules _ (some [t.id]) db4 heq)
        (goodStep_trans (goodStep_create_transaction_flags db4 t.id _)
          (goodStep_trans (goodStep_check_duplicates_preserve _ [t.id])
            (goodStep_process_custom_flag _ custom t.id))))) hwf).1

/-- The store of the C2 counterexample: one transaction with an absent
amount carrying the unresolved `PARSE_ERROR` produced at creation from
the raw input `'abc'`. -/
def dbC2 : DB :=
  { transactions := [⟨1, "Coffee", "", none, some dtA⟩],
    flags := [⟨1, 1, none, "PARSE_ERROR", "Could not parse amount: 'abc'", false, false⟩],
    nextTxnId := 2, nextFlagId := 2 }

/-- The stored transaction row of `dbC2`. -/
def txnC2 : Transaction := ⟨1, "Coffee", "", none, some dtA⟩

/-- A payload identical to `txnC2`'s stored data. -/
def payloadC2 : RawRecord :=
  { description := some "Coffee", category := some "", amount := some .null,
    datetime := some (.obj dtA), custom_flag := none }

/-- The store produced by the no-op update of `txnC2` in `dbC2`. -/
def dbC2' : DB :=
  { transactions := [⟨1, "Coffee", "", none, some dtA⟩],
    flags := [⟨2, 1, none, "MISSING_DATA", "Missing category", false, false⟩,
              ⟨3, 1, none, "PARSE_ERROR", "Missing or invalid amount value", false, false⟩],
    nextTxnId := 2, nextFlagId := 4 }

/-- C2 counterexample: updating a transaction with a payload identical to
its stored data leaves the transaction unchanged but regenerates its
unresolved `PARSE_ERROR` flag with a *different* message — the original
flag quoted the raw input (`Could not parse amount: 'abc'`), the
regenerated one is the generic `Missing or invalid amount value`, because
the raw string is not stored and re-validation sees only the absent
amount. -/
theorem C2_counterexample :
    update_transaction_with_flags sampleEnv [] dbC2 txnC2 payloadC2 = .ok dbC2' ∧
    txnC2 ∈ dbC2.transactions ∧
    dbC2'.transactions = dbC2.transactions ∧
    (∃ f ∈ dbC2.flags, f.flag_type = "PARSE_ERROR" ∧ f.is_resolved = false ∧
      f.message = "Could not parse amount: 'abc'") ∧
    (∀ f ∈ dbC2'.flags, f.message ≠ "Could not parse amount: 'abc'") ∧
    (∃ f ∈ dbC2'.flags, f.flag_type = "PARSE_ERROR" ∧
      f.message = "Missing or invalid amount value") := by
  decide

/-- Witness for C2 (amended): the concrete no-op update on `dbC2`
preserves its (well-formed) protected flags. -/
theorem C2_amended_update_witness :
    FlagsWF dbC2 ∧ FlagsPreserved dbC2 dbC2' :=
  ⟨by decide, C2_amended_update_preserves_flags sampleEnv [] dbC2 txnC2 payloadC2 dbC2'
    (by decide) (by decide)⟩

/-! ## C1 — where DUPLICATE flags can come from

`dupFlagOK` is the signal-path guarantee: a flag relating two distinct
stored rows with equal description and amount, amount present.
`dupFlagOKDt` additionally demands equal datetimes — the guarantee of the
bulk path, and the one the spec asserts for both paths. -/

/-- A DUPLICATE flag relating two distinct stored transactions with equal
description and amount, both amounts present. -/
def dupFlagOK (db : DB) (f : TransactionFlag) : Prop :=
  f.flag_type = "DUPLICATE" ∧
  ∃ a ∈ db.transactions, ∃ b ∈ db.transactions,
    f.transaction_id = a.id ∧ f.duplicates_transaction_id = some b.id ∧
    a.id ≠ b.id ∧ a.description = b.description ∧ a.amount = b.amount ∧ a.amount ≠ none

/-- `dupFlagOK` strengthened with equal datetimes. -/
def dupFlagOKDt (db : DB) (f : TransactionFlag) : Prop :=
  f.flag_type = "DUPLICATE" ∧
  ∃ a ∈ db.transactions, ∃ b ∈ db.transactions,
    f.transaction_id = a.id ∧ f.duplicates_transaction_id = some b.id ∧
    a.id ≠ b.id ∧ a.description = b.description ∧ a.amount = b.amount ∧ a.amount ≠ none ∧
    a.datetime = b.datetime

theorem tripleEq_iff (a b : Transaction) :
    tripleEq a b = true ↔
      a.amount = b.amount ∧ a.description = b.description ∧ a.datetime = b.datetime := by
  unfold tripleEq
  simp [Bool.and_eq_true, and_assoc]

theorem tripleEq_refl (a : Transaction) : tripleEq a a = true := by
  simp [tripleEq_iff]

theorem tripleEq_symm {a b : Transaction} (h : tripleEq a b = true) : tripleEq b a = true := by
  rw [tripleEq_iff] at h ⊢
  exact ⟨h.1.symm, h.2.1.symm, h.2.2.symm⟩

theorem tripleEq_trans {a b c : Transaction} (h1 : tripleEq a b = true)
    (h2 : tripleEq b c = true) : tripleEq a c = true := by
  rw [tripleEq_iff] at h1 h2 ⊢
  exact ⟨h1.1.trans h2.1, h1.2.1.trans h2.2.1, h1.2.2.trans h2.2.2⟩

theorem mem_groupByTripleAux_sub : ∀ (fuel : Nat) (l g : List Transaction),
    g ∈ groupByTripleAux fuel l → ∀ t ∈ g, t ∈ l := by
  intro fuel
  induction fuel with
  | zero => intro l g hg; simp [groupByTripleAux] at hg
  | succ n ih =>
    intro l g hg t ht
    cases l with
    | nil => simp [groupByTripleAux] at hg
    | cons x xs =>
      simp only [groupByTripleAux, List.mem_cons] at hg
      rcases hg with hg | hg
      · subst hg
        rcases List.mem_cons.1 ht with h | h
        · subst h; exact List.mem_cons_self _ _
        · exact List.mem_cons_of_mem _ (List.mem_of_mem_filter h)
      · exact List.mem_cons_of_mem _ (List.mem_of_mem_filter (ih _ g hg t ht))

theorem tripleEq_of_mem_groupByTripleAux : ∀ (fuel : Nat) (l g : List Transaction),
    g ∈ groupByTripleAux fuel l → ∀ t1 ∈ g, ∀ t2 ∈ g, tripleEq t1 t2 = true := by
  intro fuel
  induction fuel with
  | zero => intro l g hg; simp [groupByTripleAux] at hg
  | succ n ih =>
    intro l g hg t1 h1 t2 h2
    cases l with
    | nil => simp [groupByTripleAux] at hg
    | cons x xs =>
      simp only [groupByTripleAux, List.mem_cons] at hg
      rcases hg with hg | hg
      · subst hg
        have e1 : tripleEq x t1 = true := by
          rcases List.mem_cons.1 h1 with h | h
          · subst h; exact tripleEq_refl t1
          · exact (List.mem_filter.1 h).2
        have e2 : tripleEq x t2 = true := by
          rcases List.mem_cons.1 h2 with h | h
          · subst h; exact tripleEq_refl t2
          · exact (List.mem_filter.1 h).2
        exact tripleEq_trans (tripleEq_symm e1) e2
      · exact ih _ g hg t1 h1 t2 h2

theorem mem_groupByTriple_sub (l g : List Transaction) (hg : g ∈ groupByTriple l) :
    ∀ t ∈ g, t ∈ l :=
  mem_groupByTripleAux_sub l.length l g hg

theorem tripleEq_of_mem_groupByTriple (l g : List Transaction) (hg : g ∈ groupByTriple l) :
    ∀ t1 ∈ g, ∀ t2 ∈ g, tripleEq t1 t2 = true :=
  tripleEq_of_mem_groupByTripleAux l.length l g hg

/-- Every ordered pair generated by steps 1–5 of the bulk detection
relates two distinct stored rows of one duplicate group: equal
description, amount and datetime, with a present amount. -/
theorem mem_duplicatePairsOf (db : DB) (ids : List Nat) (a b : Nat)
    (hmem : (a, b) ∈ duplicatePairsOf db ids) :
    ∃ A ∈ db.transactions, ∃ B ∈ db.transactions,
      a = A.id ∧ b = B.id ∧ A.id ≠ B.id ∧ A.description = B.description ∧
      A.amount = B.amount ∧ A.amount ≠ none ∧ A.datetime = B.datetime := by
  simp only [duplicatePairsOf] at hmem
  rw [mem_dedupPairs] at hmem
  obtain ⟨g, hg, hpair⟩ := List.mem_flatMap.1 hmem
  obtain ⟨hgmem, _⟩ := List.mem_filter.1 hg
  obtain ⟨t1, t2, h1, h2, ha, hb, _, hne⟩ := mem_genPairsGroup_elim _ g a b hpair
  have hsub := mem_groupByTriple_sub _ g hgmem
  have htrip := tripleEq_of_mem_groupByTriple _ g hgmem t1 h1 t2 h2
  rw [tripleEq_iff] at htrip
  have ht1dup := hsub t1 h1
  have ht2dup := hsub t2 h2
  have ht1db : t1 ∈ db.transactions := List.mem_of_mem_filter ht1dup
  have ht2db : t2 ∈ db.transactions := List.mem_of_mem_filter ht2dup
  have ht1pred := (List.mem_filter.1 ht1dup).2
  rw [List.any_eq_true] at ht1pred
  obtain ⟨grp, hgrp, hany⟩ := ht1pred
  rw [List.any_eq_true] at hany
  obtain ⟨t, htg, htt1⟩ := hany
  have htcand := mem_groupByTriple_sub _ grp (List.mem_of_mem_filter hgrp) t htg
  have htpred := (List.mem_filter.1 htcand).2
  simp only [Bool.and_eq_true] at htpred
  have htsome : t.amount.isSome = true := htpred.2
  rw [tripleEq_iff] at htt1
  have ht1some : t1.amount.isSome = true := by
    rw [← htt1.1]; exact htsome
  refine ⟨t1, ht1db, t2, ht2db, ha, hb, hne, htrip.2.1, htrip.1, ?_, htrip.2.2⟩
  intro hnone
  rw [hnone] at ht1some
  simp at ht1some

/-- `update_or_create` keyed on `(transaction, 'DUPLICATE')` only adds or
rewrites flags that relate a valid duplicate pair of the reference store
(assuming unique flag ids, so the rewrite hits exactly the matched row). -/
theorem update_or_create_origin (db0 db : DB) (tid dupId : Nat) (msg : String)
    (isRes : Bool) (hN : (db.flags.map TransactionFlag.id).Nodup)
    (hsub : ∀ f ∈ db.flags, f ∈ db0.flags ∨ dupFlagOK db0 f)
    (hpair : ∃ a ∈ db0.transactions, ∃ b ∈ db0.transactions, tid = a.id ∧ dupId = b.id ∧
      a.id ≠ b.id ∧ a.description = b.description ∧ a.amount = b.amount ∧ a.amount ≠ none) :
    ∀ f ∈ (update_or_create_duplicate_flag db tid dupId msg isRes).flags,
      f ∈ db0.flags ∨ dupFlagOK db0 f := by
  intro f hf
  unfold update_or_create_duplicate_flag at hf
  cases hfind : db.flags.find? (fun g => g.transaction_id == tid &&
      g.flag_type == "DUPLICATE") with
  | none =>
    rw [hfind] at hf
    dsimp only at hf
    rcases List.mem_append.1 hf with h | h
    · exact hsub f h
    · rw [List.mem_singleton] at h
      subst h
      right
      obtain ⟨a, ha, b, hb, hta, hdb, hne, hdesc, hamt, hnn⟩ := hpair
      exact ⟨rfl, a, ha, b, hb, hta, by rw [hdb], hne, hdesc, hamt, hnn⟩
  | some f0 =>
    rw [hfind] at hf
    dsimp only at hf
    obtain ⟨g, hg, hgf⟩ := List.mem_map.1 hf
    have hinj := List.inj_on_of_nodup_map hN
    by_cases hid : g.id = f0.id
    · right
      obtain ⟨a, ha, b, hb, hta, hdb, hne, hdesc, hamt, hnn⟩ := hpair
      have hp := List.find?_some hfind
      simp only [Bool.and_eq_true, beq_iff_eq] at hp
      have hge : g = f0 := hinj hg (List.mem_of_find?_eq_some hfind) hid
      rw [← hgf]
      unfold dupRewrite
      rw [if_pos (by simp [hid])]
      exact ⟨by simp [hge, hp.2], a, ha, b, hb, by simp [hge, hp.1, hta],
        by simp [hdb], hne, hdesc, hamt, hnn⟩
    · rw [← hgf, dupRewrite_of_ne dupId msg isRes f0.id g hid]
      exact hsub g hg

/-- The post-save receiver's fold over the duplicate group only adds or
rewrites flags relating valid duplicate pairs. -/
theorem foldl_update_or_create_origin (db0 : DB) (t : Transaction)
    (ht : t ∈ db0.transactions) :
    ∀ l : List Transaction,
      (∀ d ∈ l, d ∈ db0.transactions ∧ d.id ≠ t.id ∧ d.description = t.description ∧
        d.amount = t.amount ∧ d.amount ≠ none) →
      ∀ db : DB, FlagsWF db → (∀ f ∈ db.flags, f ∈ db0.flags ∨ dupFlagOK db0 f) →
      ∀ f ∈ (l.foldl (fun db d => update_or_create_duplicate_flag db d.id t.id
        (dupMessage t.id) (existingDupResolved db d.id)) db).flags,
      f ∈ db0.flags ∨ dupFlagOK db0 f := by
  intro l
  induction l with
  | nil => intro _ db _ hinv f hf; exact hinv f hf
  | cons d rest ih =>
    intro hl db hwf hinv f hf
    rw [List.foldl_cons] at hf
    have hd := hl d (List.mem_cons_self d rest)
    refine ih (fun e he => hl e (List.mem_cons_of_mem _ he)) _
      ((goodStep_update_or_create db d.id t.id (dupMessage t.id) hwf).2) ?_ f hf
    exact update_or_create_origin db0 db d.id t.id (dupMessage t.id)
      (existingDupResolved db d.id) hwf.1 hinv
      ⟨d, hd.1, t, ht, rfl, rfl, hd.2.1, hd.2.2.1, hd.2.2.2.1, hd.2.2.2.2⟩

/-- The `create_duplicate_flag` post_save receiver only adds or rewrites
DUPLICATE flags relating two distinct stored transactions with equal
description and amount, both present. -/
theorem create_duplicate_flag_origin (db : DB) (t : Transaction) (created : Bool)
    (hmem : t ∈ db.transactions) (hwf : FlagsWF db) :
    ∀ f ∈ (create_duplicate_flag db t created).flags, f ∈ db.flags ∨ dupFlagOK db f := by
  intro f hf
  unfold create_duplicate_flag at hf
  split at hf
  · exact Or.inl hf
  · rename_i hamt
    cases hfil : db.transactions.filter (fun u => u.description == t.description &&
        u.amount == t.amount && u.id != t.id) with
    | nil =>
      rw [hfil] at hf
      dsimp only at hf
      split at hf
      · exact Or.inl (List.mem_of_mem_filter hf)
      · exact Or.inl hf
    | cons first rest =>
      rw [hfil] at hf
      dsimp only at hf
      have hprops : ∀ d ∈ first :: rest, d ∈ db.transactions ∧ d.id ≠ t.id ∧
          d.description = t.description ∧ d.amount = t.amount ∧ d.amount ≠ none := by
        intro d hd
        have hdm : d ∈ db.transactions.filter (fun u => u.description == t.description &&
            u.amount == t.amount && u.id != t.id) := hfil ▸ hd
        obtain ⟨hm, hp⟩ := List.mem_filter.1 hdm
        simp only [Bool.and_eq_true, beq_iff_eq, bne_iff_ne, ne_eq] at hp
        refine ⟨hm, hp.2, hp.1.1, hp.1.2, ?_⟩
        rw [hp.1.2]
        exact hamt
      have hfirst := hprops first (List.mem_cons_self first rest)
      refine foldl_update_or_create_origin db t hmem (first :: rest) hprops _
        ((goodStep_update_or_create db t.id first.id (dupMessage first.id) hwf).2)
        ?_ f hf
      exact update_or_create_origin db db t.id first.id (dupMessage first.id)
        (existingDupResolved db t.id) hwf.1 (fun f hf => Or.inl hf)
        ⟨t, hmem, first, hfirst.1, rfl, rfl, Ne.symm hfirst.2.1, hfirst.2.2.1.symm,
         hfirst.2.2.2.1.symm, hamt⟩

/-- Every flag present after the bulk insert-or-ignore fold was present
before it or carries the inserted rows' shape (owner, reference and
DUPLICATE type from some element of the insert list). -/
theorem foldl_bulk_insert_origin (l : List (Nat × Nat × String × Bool)) :
    ∀ (db : DB) (f : TransactionFlag),
      f ∈ (l.foldl (fun db fc => bulk_insert_flag_ignore_conflict db fc.1 (some fc.2.1)
        "DUPLICATE" fc.2.2.1 true fc.2.2.2) db).flags →
      f ∈ db.flags ∨ ∃ fc ∈ l, f.transaction_id = fc.1 ∧
        f.duplicates_transaction_id = some fc.2.1 ∧ f.flag_type = "DUPLICATE" := by
  induction l with
  | nil => intro db f hf; exact Or.inl hf
  | cons x xs ih =>
    intro db f hf
    rw [List.foldl_cons] at hf
    rcases ih _ f hf with h | ⟨fc, hfc, hp⟩
    · unfold bulk_insert_flag_ignore_conflict at h
      split at h
      · exact Or.inl h
      · rcases List.mem_append.1 h with h' | h'
        · exact Or.inl h'
        · rw [List.mem_singleton] at h'
          subst h'
          exact Or.inr ⟨x, List.mem_cons_self x xs, rfl, rfl, rfl⟩
    · exact Or.inr ⟨fc, List.mem_cons_of_mem _ hfc, hp⟩

/-- Every flag `check_duplicates_bulk` adds relates two distinct stored
transactions with equal description, amount *and datetime*, both amounts
present. -/
theorem check_duplicates_bulk_new_flags (db : DB) (ids : List Nat) (pres : Bool) :
    ∀ f ∈ (check_duplicates_bulk db ids pres).1.flags, f ∉ db.flags →
      dupFlagOKDt db f := by
  intro f hf hnot
  simp only [check_duplicates_bulk] at hf
  by_cases hp : duplicatePairsOf db ids = []
  · rw [if_pos hp] at hf
    exact absurd hf hnot
  · rw [if_neg hp] at hf
    dsimp only at hf
    rcases foldl_bulk_insert_origin _ _ f hf with h | ⟨fc, hfc, h1, h2, h3⟩
    · exfalso
      apply hnot
      split at h
      · exact h
      · exact List.mem_of_mem_filter h
    · obtain ⟨p, hpmem, hpfc⟩ := List.mem_map.1 hfc
      obtain ⟨A, hA, B, hB, ha, hb, hne, hdesc, hamt, hnn, hdt⟩ :=
        mem_duplicatePairsOf db ids p.1 p.2 hpmem
      have hfc1 : fc.1 = p.1 := by rw [← hpfc]
      have hfc2 : fc.2.1 = p.2 := by rw [← hpfc]
      exact ⟨h3, A, hA, B, hB, h1.trans (hfc1.trans ha), by rw [h2, hfc2, hb],
        hne, hdesc, hamt, hnn, hdt⟩

/-- The store of the C1 counterexample before the create: one row with a
present amount. -/
def dbC1pre : DB :=
  { transactions := [⟨1, "Coffee", "Drinks", some 5, some dtA⟩],
    flags := [], nextTxnId := 2, nextFlagId := 1 }

/-- A record matching `dbC1pre`'s row in description and amount but not in
datetime. -/
def recC1 : RawRecord :=
  { description := some "Coffee", category := some "Drinks", amount := some (.num 5),
    datetime := some (.obj dtB) }

/-- The store produced by creating `recC1` on `dbC1pre`. -/
def dbC1post : DB :=
  { transactions := [⟨1, "Coffee", "Drinks", some 5, some dtA⟩,
                     ⟨2, "Coffee", "Drinks", some 5, some dtB⟩],
    flags := [⟨1, 2, some 1, "DUPLICATE", "Possible duplicate of transaction 1", true, false⟩,
              ⟨2, 1, some 2, "DUPLICATE", "Possible duplicate of transaction 2", true, false⟩],
    nextTxnId := 3, nextFlagId := 3 }

/-- C1 counterexample: creating a transaction whose description and amount
match an existing row while its datetime differs produces DUPLICATE flags
both ways — the post_save receiver matches on description and amount only,
so "identical (description, amount, datetime)" is not required for a
DUPLICATE flag. -/
theorem C1_counterexample :
    create_transaction_with_flags sampleEnv [] dbC1pre recC1 = .ok (dbC1post, 2) ∧
    (∀ a ∈ dbC1post.transactions, ∀ b ∈ dbC1post.transactions,
      a.id ≠ b.id → a.datetime ≠ b.datetime) ∧
    (∃ f ∈ dbC1post.flags, f.flag_type = "DUPLICATE" ∧ f.transaction_id = 2 ∧
      f.duplicates_transaction_id = some 1) ∧
    (∃ f ∈ dbC1post.flags, f.flag_type = "DUPLICATE" ∧ f.transaction_id = 1 ∧
      f.duplicates_transaction_id = some 2) := by
  decide

/-- The two-row store of the C1 witness: equal description and amount,
different datetimes, no flags. -/
def dbC1 : DB :=
  { transactions := [⟨1, "Coffee", "", some 5, some dtA⟩, ⟨2, "Coffee", "", some 5, some dtB⟩],
    flags := [], nextTxnId := 3, nextFlagId := 1 }

/-- The first stored row of `dbC1`. -/
def txnC1 : Transaction := ⟨1, "Coffee", "", some 5, some dtA⟩

/-- C1 (amended): the post_save receiver creates or rewrites DUPLICATE
flags only between distinct stored transactions with equal description and
equal *present* amount (datetime is ignored); the bulk detection pass
additionally requires equal datetimes; a transaction with an absent
amount is never saved-through into duplicate flags, and no new DUPLICATE
flag of either operation is placed on or references an absent-amount
transaction. -/
theorem C1_amended_duplicate_conditions (db : DB) (t : Transaction) (created : Bool)
    (ids : List Nat) (pres : Bool)
    (hmem : t ∈ db.transactions) (hfwf : FlagsWF db) (hN : DB.WF db) :
    (∀ f ∈ (create_duplicate_flag db t created).flags, f ∈ db.flags ∨ dupFlagOK db f) ∧
    (∀ f ∈ (check_duplicates_bulk db ids pres).1.flags, f ∉ db.flags → dupFlagOKDt db f) ∧
    (t.amount = none → create_duplicate_flag db t created = db) ∧
    (∀ u ∈ db.transactions, u.amount = none → ∀ f,
      (f ∈ (create_duplicate_flag db t created).flags ∨
       f ∈ (check_duplicates_bulk db ids pres).1.flags) → f ∉ db.flags →
      f.transaction_id ≠ u.id ∧ f.duplicates_transaction_id ≠ some u.id) := by
  refine ⟨create_duplicate_flag_origin db t created hmem hfwf,
          check_duplicates_bulk_new_flags db ids pres, ?_, ?_⟩
  · intro h
    unfold create_duplicate_flag
    rw [if_pos h]
  · intro u hu hun f hor hnot
    have hok : dupFlagOK db f := by
      rcases hor with h | h
      · rcases create_duplicate_flag_origin db t created hmem hfwf f h with h' | h'
        · exact absurd h' hnot
        · exact h'
      · obtain ⟨hft, A, hA, B, hB, h1, h2, hne, hdesc, hamt, hnn, _⟩ :=
          check_duplicates_bulk_new_flags db ids pres f h hnot
        exact ⟨hft, A, hA, B, hB, h1, h2, hne, hdesc, hamt, hnn⟩
    obtain ⟨hft, A, hA, B, hB, h1, h2, hne, hdesc, hamt, hnn⟩ := hok
    have hinj := List.inj_on_of_nodup_map hN.1
    constructor
    · intro he
      have hAu : A = u := hinj hA hu (h1.symm.trans he)
      rw [hAu] at hnn
      exact hnn hun
    · intro he
      have hBu : B = u := hinj hB hu (Option.some.inj (h2.symm.trans he))
      have hBnn : B.amount ≠ none := by
        rw [← hamt]; exact hnn
      rw [hBu] at hBnn
      exact hBnn hun

/-- Witness for C1 (amended): on the concrete two-row store every flag the
post_save receiver produces is a valid duplicate-pair flag. -/
theorem C1_amended_witness :
    txnC1 ∈ dbC1.transactions ∧ FlagsWF dbC1 ∧ DB.WF dbC1 ∧
    (∀ f ∈ (create_duplicate_flag dbC1 txnC1 false).flags,
      f ∈ dbC1.flags ∨ dupFlagOK dbC1 f) :=
  ⟨by decide, by decide, by decide,
   (C1_amended_duplicate_conditions dbC1 txnC1 false [1, 2] true
     (by decide) (by decide) (by decide)).1⟩

end Bookkeeping
